import Mathlib

/-!
Shallow embedding of the maze-chase simulation engine
(`src/unnamed/part_001`, second revision of `useGameLogic`, together with
`src/constants.ts`, `src/types.ts` and `src/ghostData.ts`).

Modelling conventions:
* JavaScript numbers are modelled as `ℚ` where fractional values can occur
  (entity positions, sizes: `GHOST_SIZE = 1.5`) and as `ℕ`/`ℤ` where the
  source only ever manipulates integers (grid dimensions, scores, counters).
  For the coefficients that appear in the generator (`0.12`, `0.22`, `0.2`,
  `0.8`, `0.42`, `0.82`, `0.5`, `0.3`, `0.85`) the exact rational floor agrees
  with the IEEE-double floor computed by `Math.floor` for every grid dimension
  in the generator's accepted range (checked case by case), so floors are
  modelled as exact integer divisions.
* JavaScript array indexing `a[i]` yields `undefined` for out-of-range,
  negative or non-integer `i`; this is modelled by `Option`-valued lookups
  (`cellAt` returns `none` exactly when the source would read `undefined`).
* `Math.random()` is modelled by an explicit oracle stream inside `AIState`;
  each call consumes the next value.  `Date.now()` is modelled by a `now`
  parameter passed to the tick (the source calls it twice per tick, always
  within the same tick, modelled as a single instant).
* The two mutable refs `ghostMoveCounters` and `ghostLastTurnTick` (maps) and
  the `gameTick` counter are threaded through `AIState`; a `Map.get(k) || 0`
  read is modelled by a total function defaulting to `0`.
-/

namespace Pacman

-- The Batteries rational-number operations are `irreducible` by default,
-- which blocks `decide`-style evaluation of concrete states; restore the
-- default reducibility for this development.
attribute [local semireducible] Rat.add Rat.sub Rat.mul Rat.inv

/-- `TileType` numeric values from `src/types.ts`. -/
def EMPTY : ℕ := 0
def WALL : ℕ := 1
def PELLET : ℕ := 2
def POWER_PELLET : ℕ := 3
def GHOST_SPAWN : ℕ := 9

/-- `Direction` from `src/types.ts`. -/
inductive Direction where
  | UP | DOWN | LEFT | RIGHT
deriving DecidableEq, Repr

/-- `Position` from `src/types.ts`; coordinates are JS numbers, modelled as `ℚ`. -/
structure Pos where
  x : ℚ
  y : ℚ
deriving DecidableEq, Repr

@[simp] theorem Pos.mk_x (a b : ℚ) : (Pos.mk a b).x = a := rfl

@[simp] theorem Pos.mk_y (a b : ℚ) : (Pos.mk a b).y = b := rfl

/-- `GameStatus` from `src/types.ts`. -/
inductive GameStatus where
  | IDLE | PLAYING | WON | GAME_OVER
deriving DecidableEq, Repr

/-- `Entity` from `src/types.ts`. -/
structure Entity where
  id : String
  pos : Pos
  dir : Option Direction
  nextDir : Option Direction
  color : String
deriving DecidableEq, Repr

/-- `Ghost` from `src/types.ts`.  The optional booleans `isActive`/`isEaten`
default to `undefined` (falsy) in JS; modelled as `Bool` with `false` for
absent. -/
structure Ghost where
  id : String
  pos : Pos
  dir : Option Direction
  nextDir : Option Direction
  color : String
  isActive : Bool
  isEaten : Bool
deriving DecidableEq, Repr

/-- A grid is a row-major list of rows of tile values (`number[][]`). -/
abbrev Grid := List (List ℕ)

/-- `GameState` from `src/types.ts`. -/
structure GameState where
  player : Entity
  ghosts : List Ghost
  grid : Grid
  score : ℕ
  status : GameStatus
  lives : ℕ
  activeMessage : Option String
  messageExpireTimestamp : ℤ
deriving DecidableEq, Repr

/-- `grid.length`. -/
def gridRows (g : Grid) : ℕ := g.length

/-- `grid[0].length` (the source always calls this on non-empty grids). -/
def gridCols (g : Grid) : ℕ := (g.headD []).length

/-- Cell lookup at integer (nat) coordinates: `grid[y][x]`, `none` when out of
range (JS `undefined`). -/
def cellAtNat (g : Grid) (x y : ℕ) : Option ℕ :=
  (g.get? y).bind fun row => row.get? x

/-- Cell lookup at JS-number coordinates: `grid[y][x]` yields `undefined`
(`none`) when either index is negative or not an integer. -/
def cellAt (g : Grid) (x y : ℚ) : Option ℕ :=
  if x.den = 1 ∧ y.den = 1 ∧ 0 ≤ x.num ∧ 0 ≤ y.num then
    cellAtNat g x.num.toNat y.num.toNat
  else none

/-- Write a cell at JS-number coordinates.  The source only ever writes cells
it has just successfully read (value `PELLET`), so the out-of-range branch is
never taken there. -/
def setCellQ (g : Grid) (x y : ℚ) (v : ℕ) : Grid :=
  if x.den = 1 ∧ y.den = 1 ∧ 0 ≤ x.num ∧ 0 ≤ y.num then
    match g.get? y.num.toNat with
    | some row => g.set y.num.toNat (row.set x.num.toNat v)
    | none => g
  else g

/-! Constants from `src/constants.ts`. -/

/-- `ENTITY_SIZE = 5`. -/
def ENTITY_SIZE : ℚ := 5
/-- `GHOST_SIZE = 1.5`. -/
def GHOST_SIZE : ℚ := 3 / 2
/-- `BOTTLE_ASPECT_RATIO = 0.6`. -/
def BOTTLE_ASPECT_RATIO : ℚ := 6 / 10
/-- `PLAYER_WIDTH = Math.max(1, Math.floor(ENTITY_SIZE * BOTTLE_ASPECT_RATIO))`. -/
def PLAYER_WIDTH : ℚ := max 1 ((Rat.floor (ENTITY_SIZE * BOTTLE_ASPECT_RATIO) : ℤ) : ℚ)
/-- `PLAYER_HEIGHT = ENTITY_SIZE`. -/
def PLAYER_HEIGHT : ℚ := ENTITY_SIZE

/-- `GAME_SPEED_MS = 180`. -/
def GAME_SPEED_MS : ℕ := 180

/-- `MOVEMENT_VECTORS` from `src/constants.ts`. -/
def MOVEMENT_VECTORS : Direction → Pos
  | .UP => ⟨0, -1⟩
  | .DOWN => ⟨0, 1⟩
  | .LEFT => ⟨-1, 0⟩
  | .RIGHT => ⟨1, 0⟩

/-- The set of loop indices `d = 0, 1, ...` with `d < w` for the rectangular
footprint loops (`for (let dy = 0; dy < height; dy++)`). -/
def footOffsets (w : ℚ) : List ℕ := List.range (Rat.ceil w).toNat

/-- `isValidMove(grid, pos, width, height)` (lines 369-382): false if the
footprint leaves the grid, otherwise true iff no covered cell is a `WALL`. -/
def isValidMove (grid : Grid) (pos : Pos) (width height : ℚ) : Bool :=
  if pos.x < 0 ∨ pos.y < 0 then false
  else if (gridRows grid : ℚ) < pos.y + height ∨ (gridCols grid : ℚ) < pos.x + width then false
  else
    (footOffsets height).all fun dy : ℕ =>
      (footOffsets width).all fun dx : ℕ =>
        decide (cellAt grid (pos.x + (dx : ℚ)) (pos.y + (dy : ℚ)) ≠ some WALL)

/-- The toroidal wrap with a one-cell tolerance band shared by
`moveEntity` (lines 408-411) and `moveGhost` (lines 805-808): a raw target
coordinate outside the travel range `[0, len - size]` by more than one cell
snaps to the opposite edge. -/
def wrapCoord (len size t : ℚ) : ℚ :=
  if t < -1 then len - size
  else if t > len - size + 1 then 0
  else t

/-- `moveEntity(entity, grid)` (lines 384-430).  Turn adoption with wrap for
the turn check, one-step advance, toroidal wrap (tolerance band of one cell),
clamped validation, and post-validation snap. -/
def moveEntity (entity : Entity) (grid : Grid) : Entity :=
  let cols : ℚ := gridCols grid
  let rows : ℚ := gridRows grid
  let currentDir : Option Direction :=
    match entity.nextDir with
    | some nd =>
      let v := MOVEMENT_VECTORS nd
      let cx0 := entity.pos.x + v.x
      let cy0 := entity.pos.y + v.y
      -- lines 393-396: sequential wrap adjustments for the turn check
      let cx1 := if cx0 < 0 then cols - PLAYER_WIDTH else cx0
      let cx2 := if cx1 > cols - PLAYER_WIDTH then 0 else cx1
      let cy1 := if cy0 < 0 then rows - PLAYER_HEIGHT else cy0
      let cy2 := if cy1 > rows - PLAYER_HEIGHT then 0 else cy1
      if isValidMove grid ⟨cx2, cy2⟩ PLAYER_WIDTH PLAYER_HEIGHT then some nd else entity.dir
    | none => entity.dir
  let nextPos : Pos :=
    match currentDir with
    | some d =>
      let v := MOVEMENT_VECTORS d
      let tx0 := entity.pos.x + v.x
      let ty0 := entity.pos.y + v.y
      -- lines 408-411: wrap with a one-cell tolerance band
      let tx := wrapCoord cols PLAYER_WIDTH tx0
      let ty := wrapCoord rows PLAYER_HEIGHT ty0
      -- lines 414-417: clamp for validation only
      let vx := max 0 (min tx (cols - PLAYER_WIDTH))
      let vy := max 0 (min ty (rows - PLAYER_HEIGHT))
      if isValidMove grid ⟨vx, vy⟩ PLAYER_WIDTH PLAYER_HEIGHT then
        -- lines 420-425: commit target, then snap (conditions on the
        -- pre-snap target, sequential assignments)
        let nx := if tx < 0 then cols - PLAYER_WIDTH else tx
        let nx2 := if tx > cols - PLAYER_WIDTH then 0 else nx
        let ny := if ty < 0 then rows - PLAYER_HEIGHT else ty
        let ny2 := if ty > rows - PLAYER_HEIGHT then 0 else ny
        ⟨nx2, ny2⟩
      else entity.pos
    | none => entity.pos
  { entity with pos := nextPos, dir := currentDir }

/-- `setDirection(dir)` (lines 349-361): rejected in terminal states, starts
the game from `IDLE`, otherwise queues the turn intent. -/
def setDirection (s : GameState) (dir : Direction) : GameState :=
  if s.status ≠ GameStatus.PLAYING ∧ s.status ≠ GameStatus.IDLE then s
  else if s.status = GameStatus.IDLE then
    { s with status := GameStatus.PLAYING, player := { s.player with nextDir := some dir } }
  else
    { s with player := { s.player with nextDir := some dir } }

/-! Ghost data from `src/ghostData.ts` (the `image` asset URL is presentation
data outside the core and is not modelled). -/

/-- `GhostType` from `src/ghostData.ts`. -/
structure GhostType where
  id : String
  name : String
  color : String
deriving DecidableEq, Repr

/-- `GHOST_TYPES` from `src/ghostData.ts`. -/
def GHOST_TYPES : List GhostType :=
  [ ⟨"g1", "Dry Skin", "#FF6B6B"⟩,
    ⟨"g2", "Dull Skin", "#95A5A6"⟩,
    ⟨"g3", "Flaky Skin", "#F39C12"⟩,
    ⟨"g4", "Itchy Skin", "#E74C3C"⟩,
    ⟨"g5", "Papery Skin", "#ECF0F1"⟩,
    ⟨"g6", "Rough Skin", "#8B4513"⟩,
    ⟨"g7", "Inelastic Skin", "#9B59B6"⟩,
    ⟨"g8", "Unhealthy Skin", "#34495E"⟩ ]

/-! The ghost AI (lines 432-830). -/

/-- The hidden per-hook state of the ghost AI: the `ghostMoveCounters` map,
the `ghostLastTurnTick` map, the `gameTick` counter, and an oracle stream for
`Math.random()`. -/
structure AIState where
  counters : String → ℕ
  lastTurn : String → ℕ
  gameTick : ℕ
  rand : ℕ → ℚ
  randIdx : ℕ

/-- Point update of a counters map (`Map.set`). -/
def mapSet (f : String → ℕ) (k : String) (v : ℕ) : String → ℕ :=
  fun k2 => if k2 = k then v else f k2

/-- Consume one `Math.random()` value from the oracle. -/
def nextRand (st : AIState) : ℚ × AIState :=
  (st.rand st.randIdx, { st with randIdx := st.randIdx + 1 })

/-- `getGhostBehavior(ghostId)` (lines 447-459). -/
def getGhostBehavior (ghostId : String) : String :=
  if ghostId = "g1" then "wanderer"
  else if ghostId = "g2" then "horizontal"
  else if ghostId = "g3" then "vertical"
  else if ghostId = "g4" then "erratic"
  else if ghostId = "g5" then "corner"
  else if ghostId = "g6" then "slow"
  else if ghostId = "g7" then "zigzag"
  else if ghostId = "g8" then "distance"
  else "wanderer"

/-- `possibleDirs` (line 463). -/
def possibleDirs : List Direction := [.UP, .DOWN, .LEFT, .RIGHT]

/-- The four `ghost.dir === X && d === Y` 180-degree-reversal checks. -/
def isReverseOf (old : Option Direction) (d : Direction) : Bool :=
  match old, d with
  | some .UP, .DOWN => true
  | some .DOWN, .UP => true
  | some .LEFT, .RIGHT => true
  | some .RIGHT, .LEFT => true
  | _, _ => false

/-- `validMoves[Math.floor(Math.random() * validMoves.length)]`: random index
pick; an out-of-range index reads `undefined` (`none`). -/
def randIndexPick (ds : List Direction) (st : AIState) : Option Direction × AIState :=
  let r := nextRand st
  let i : ℤ := Rat.floor (r.1 * (ds.length : ℚ))
  (if i < 0 then none else ds.get? i.toNat, r.2)

/-- The recurring flee fold: pick the candidate maximizing squared Euclidean
distance to the player (strict improvement over a running max starting at -1;
`chosenDir` keeps its previous value if the list is empty). -/
def fleeFold (gpos ppos : Pos) (ds : List Direction) (init : Option Direction) :
    Option Direction :=
  (ds.foldl (fun acc d =>
    let v := MOVEMENT_VECTORS d
    let dist := (gpos.x + v.x - ppos.x) ^ 2 + (gpos.y + v.y - ppos.y) ^ 2
    if acc.2 < dist then (some d, dist) else acc) (init, (-1 : ℚ))).1

/-- Axis fold on x: maximize `(ghost.x + vec.x - player.x)^2`, `bestDir`
initialized to the first element. -/
def axisXFold (gpos ppos : Pos) (ds : List Direction) : Option Direction :=
  (ds.foldl (fun acc d =>
    let v := MOVEMENT_VECTORS d
    let dist := (gpos.x + v.x - ppos.x) ^ 2
    if acc.2 < dist then (some d, dist) else acc) (ds.head?, (-1 : ℚ))).1

/-- Axis fold on y: maximize `(ghost.y + vec.y - player.y)^2`. -/
def axisYFold (gpos ppos : Pos) (ds : List Direction) : Option Direction :=
  (ds.foldl (fun acc d =>
    let v := MOVEMENT_VECTORS d
    let dist := (gpos.y + v.y - ppos.y) ^ 2
    if acc.2 < dist then (some d, dist) else acc) (ds.head?, (-1 : ℚ))).1

/-- The corner-hugger scoring fold (lines 636-671). -/
def cornerFold (gpos ppos : Pos) (cols rows : ℚ) (ds : List Direction) :
    Option Direction :=
  (ds.foldl (fun acc d =>
    let v := MOVEMENT_VECTORS d
    let newX := gpos.x + v.x
    let newY := gpos.y + v.y
    let minEdgeDist := min (min newX (cols - newX)) (min newY (rows - newY))
    let edgeScore := 100 - minEdgeDist
    let playerDist := (newX - ppos.x) ^ 2 + (newY - ppos.y) ^ 2
    let totalScore := edgeScore + playerDist * (1 / 10)
    if acc.2 < totalScore then (some d, totalScore) else acc) (ds.head?, (-1 : ℚ))).1

/-- The distance-keeper selection fold (lines 735-761); `bestScore` starts at
`Infinity`, modelled as `none`. -/
def distanceFold (gpos ppos : Pos) (currentDist : ℚ) (ds : List Direction) :
    Option Direction :=
  (ds.foldl (fun acc d =>
    let v := MOVEMENT_VECTORS d
    let newDist := (gpos.x + v.x - ppos.x) ^ 2 + (gpos.y + v.y - ppos.y) ^ 2
    let score := |newDist - 64|
    if currentDist < 36 ∧ newDist < currentDist then acc
    else
      match acc.2 with
      | none => (some d, some score)
      | some b => if score < b then (some d, some score) else acc)
    (ds.head?, (none : Option ℚ))).1

/-- The behavior `switch` (lines 525-794), producing the chosen direction
(possibly `undefined`) and the updated AI state. -/
def chooseByBehavior (behavior : String) (ghost : Ghost) (grid : Grid)
    (ppos : Pos) (validMoves : List Direction) (st : AIState) :
    Option Direction × AIState :=
  let cols : ℚ := gridCols grid
  let rows : ℚ := gridRows grid
  let gpos := ghost.pos
  if behavior = "wanderer" then
    let (r, st1) := nextRand st
    if r < 6 / 10 then (fleeFold gpos ppos validMoves ghost.dir, st1)
    else randIndexPick validMoves st1
  else if behavior = "horizontal" then
    let hm := validMoves.filter fun d => d = .LEFT ∨ d = .RIGHT
    if hm.isEmpty then
      if validMoves.isEmpty then (ghost.dir, st)
      else (fleeFold gpos ppos validMoves ghost.dir, st)
    else
      let (r, st1) := nextRand st
      if r < 8 / 10 then (axisXFold gpos ppos hm, st1)
      else if validMoves.isEmpty then (ghost.dir, st1)
      else (fleeFold gpos ppos validMoves ghost.dir, st1)
  else if behavior = "vertical" then
    let vm := validMoves.filter fun d => d = .UP ∨ d = .DOWN
    if vm.isEmpty then
      if validMoves.isEmpty then (ghost.dir, st)
      else (fleeFold gpos ppos validMoves ghost.dir, st)
    else
      let (r, st1) := nextRand st
      if r < 8 / 10 then (axisYFold gpos ppos vm, st1)
      else if validMoves.isEmpty then (ghost.dir, st1)
      else (fleeFold gpos ppos validMoves ghost.dir, st1)
  else if behavior = "erratic" then
    let lastTurn := st.lastTurn ghost.id
    let ticksSinceLastTurn : ℤ := (st.gameTick : ℤ) - (lastTurn : ℤ)
    let (r1, st1) := nextRand st
    if ticksSinceLastTurn > 2 + Rat.floor (r1 * 3) then
      let otherDirs := validMoves.filter fun d => ghost.dir ≠ some d
      if ¬otherDirs.isEmpty then
        let (c, st2) := randIndexPick otherDirs st1
        (c, { st2 with lastTurn := mapSet st2.lastTurn ghost.id st2.gameTick })
      else randIndexPick validMoves st1
    else
      match ghost.dir with
      | some d => if validMoves.contains d then (some d, st1) else randIndexPick validMoves st1
      | none => randIndexPick validMoves st1
  else if behavior = "corner" then
    (cornerFold gpos ppos cols rows validMoves, st)
  else if behavior = "slow" then
    (fleeFold gpos ppos validMoves ghost.dir, st)
  else if behavior = "zigzag" then
    let counter := st.counters ghost.id
    let st1 := { st with counters := mapSet st.counters ghost.id (counter + 1) }
    let preferVertical := counter % 4 < 2
    if preferVertical then
      let vm := validMoves.filter fun d => d = .UP ∨ d = .DOWN
      if ¬vm.isEmpty then (axisYFold gpos ppos vm, st1)
      else randIndexPick validMoves st1
    else
      let hm := validMoves.filter fun d => d = .LEFT ∨ d = .RIGHT
      if ¬hm.isEmpty then (axisXFold gpos ppos hm, st1)
      else randIndexPick validMoves st1
  else if behavior = "distance" then
    let currentDist := (gpos.x - ppos.x) ^ 2 + (gpos.y - ppos.y) ^ 2
    let best1 := distanceFold gpos ppos currentDist validMoves
    let best2 := if currentDist < 36 then fleeFold gpos ppos validMoves best1 else best1
    (best2, st)
  else
    (fleeFold gpos ppos validMoves ghost.dir, st)

/-- The final position commit of `moveGhost` (lines 801-824): wrap with
tolerance band, clamp for validation, and snap on the running value. -/
def ghostCommit (grid : Grid) (gpos : Pos) (chosen : Option Direction) : Pos :=
  let cols : ℚ := gridCols grid
  let rows : ℚ := gridRows grid
  -- `MOVEMENT_VECTORS[chosenDir] || { x: 0, y: 0 }`
  let v := match chosen with
    | some d => MOVEMENT_VECTORS d
    | none => (⟨0, 0⟩ : Pos)
  let nx0 := gpos.x + v.x
  let ny0 := gpos.y + v.y
  -- lines 805-808: wrap with tolerance band
  let nx1 := wrapCoord cols GHOST_SIZE nx0
  let ny1 := wrapCoord rows GHOST_SIZE ny0
  -- lines 811-814: clamp for validation
  let vx := max 0 (min nx1 (cols - GHOST_SIZE))
  let vy := max 0 (min ny1 (rows - GHOST_SIZE))
  if isValidMove grid ⟨vx, vy⟩ GHOST_SIZE GHOST_SIZE then
    -- lines 818-821: snap, conditions read the running value
    let nx2 := if nx1 < 0 then cols - GHOST_SIZE else nx1
    let nx3 := if nx2 > cols - GHOST_SIZE then 0 else nx2
    let ny2 := if ny1 < 0 then rows - GHOST_SIZE else ny1
    let ny3 := if ny2 > rows - GHOST_SIZE then 0 else ny2
    ⟨nx3, ny3⟩
  else gpos

/-- `moveGhost(ghost, grid, player)` (lines 461-830) with the hidden hook
state made explicit. -/
def moveGhost (ghost : Ghost) (grid : Grid) (player : Entity) (st : AIState) :
    Ghost × AIState :=
  let behavior := getGhostBehavior ghost.id
  -- lines 466-471: global pacing counter (incremented on every invocation)
  let globalCounter := st.counters "global_tick"
  let st1 := { st with counters := mapSet st.counters "global_tick" (globalCounter + 1) }
  if globalCounter % 5 = 0 then (ghost, st1)
  else
    -- lines 473-480: the slow mover additionally skips every other invocation
    let slowCounter := st1.counters ghost.id
    let st2 := if behavior = "slow" then
        { st1 with counters := mapSet st1.counters ghost.id (slowCounter + 1) }
      else st1
    if behavior = "slow" ∧ slowCounter % 2 = 0 then (ghost, st2)
    else
      -- line 483
      let cr : Bool × AIState :=
        if behavior = "erratic" then
          let r := nextRand st2
          ((decide (r.1 < 3 / 10) : Bool), r.2)
        else (false, st2)
      let canReverse := cr.1
      let st3 := cr.2
      -- lines 485-504: candidate filter, with per-candidate x-wrap
      let validMoves1 := possibleDirs.filter fun d =>
        (canReverse || !(isReverseOf ghost.dir d)) &&
        (let v := MOVEMENT_VECTORS d
         let tx0 := ghost.pos.x + v.x
         let ty0 := ghost.pos.y + v.y
         let tx1 := if tx0 < 0 then (gridCols grid : ℚ) - GHOST_SIZE else tx0
         let tx2 := if tx1 > (gridCols grid : ℚ) - GHOST_SIZE then 0 else tx1
         isValidMove grid ⟨tx2, ty0⟩ GHOST_SIZE GHOST_SIZE)
      -- lines 507-515: dead end allows reversal (no wrap in this pass)
      let validMoves := if validMoves1.isEmpty then
          possibleDirs.filter fun d =>
            let v := MOVEMENT_VECTORS d
            isValidMove grid ⟨ghost.pos.x + v.x, ghost.pos.y + v.y⟩ GHOST_SIZE GHOST_SIZE
        else validMoves1
      if validMoves.isEmpty then (ghost, st3)
      else
        let picked := chooseByBehavior behavior ghost grid player.pos validMoves st3
        let chosen0 := picked.1
        let st4 := picked.2
        -- lines 797-799: fallback if no usable direction chosen
        let fb :=
          match chosen0 with
          | none => randIndexPick validMoves st4
          | some d => if validMoves.contains d then (chosen0, st4)
                      else randIndexPick validMoves st4
        let chosen := fb.1
        let st5 := fb.2
        let newPos := ghostCommit grid ghost.pos chosen
        -- line 827: gameTick incremented on the full path only
        ({ ghost with pos := newPos, dir := chosen },
         { st5 with gameTick := st5.gameTick + 1 })

/-! The per-tick resolution inside `gameLoop` (lines 832-1031). -/

/-- One cell of the pellet-eating loop (lines 856-867): skip when the bounds
guard fails, clear a `PELLET` to `EMPTY` and add 10 to the score. -/
def eatCell (acc : Grid × ℕ) (px py : ℚ) : Grid × ℕ :=
  if py < (gridRows acc.1 : ℚ) ∧ px < (gridCols acc.1 : ℚ) then
    if cellAt acc.1 px py = some PELLET then
      (setCellQ acc.1 px py EMPTY, acc.2 + 10)
    else acc
  else acc

/-- The pellet-eating double loop over the player's footprint. -/
def eatPellets (grid : Grid) (ppos : Pos) (score : ℕ) : Grid × ℕ :=
  (footOffsets PLAYER_HEIGHT).foldl (fun acc (dy : ℕ) =>
    (footOffsets PLAYER_WIDTH).foldl (fun acc2 (dx : ℕ) =>
      eatCell acc2 (ppos.x + (dx : ℚ)) (ppos.y + (dy : ℚ))) acc) (grid, score)

/-- `prev.ghosts.map(g => g.isActive ? moveGhost(...) : g)` (lines 871-876),
with the mutable AI state threaded left to right. -/
def moveActiveGhosts (ghosts : List Ghost) (grid : Grid) (player : Entity)
    (st : AIState) : List Ghost × AIState :=
  match ghosts with
  | [] => ([], st)
  | g :: gs =>
    if g.isActive then
      let r := moveGhost g grid player st
      let rest := moveActiveGhosts gs grid player r.2
      (r.1 :: rest.1, rest.2)
    else
      let rest := moveActiveGhosts gs grid player st
      (g :: rest.1, rest.2)

/-- The AABB collision test of lines 893-897. -/
def aabbCollision (ppos gpos : Pos) : Bool :=
  decide (ppos.x < gpos.x + GHOST_SIZE) &&
  decide (ppos.x + PLAYER_WIDTH > gpos.x) &&
  decide (ppos.y < gpos.y + GHOST_SIZE) &&
  decide (ppos.y + PLAYER_HEIGHT > gpos.y)

/-- The name lookup `GHOST_TYPES.find(type => type.id === g.id)`. -/
def ghostTypeFor (gid : String) : Option GhostType :=
  GHOST_TYPES.find? fun t => t.id = gid

/-- The accumulator variables of the collision-processing `map`
(`updatedScore`, `newMessage`, `newMessageExpiry`, `ghostWasEaten`),
together with the mapped list. -/
structure CollOut where
  ghosts : List Ghost
  score : ℕ
  msg : Option String
  expiry : ℤ
  wasEaten : Bool
deriving DecidableEq

/-- The collision-processing `map` (lines 889-919) with its accumulator
variables made explicit. -/
def processCollisions (ghosts : List Ghost) (ppos : Pos) (score : ℕ)
    (msg : Option String) (expiry : ℤ) (now : ℤ) (wasEaten : Bool) : CollOut :=
  match ghosts with
  | [] => ⟨[], score, msg, expiry, wasEaten⟩
  | g :: gs =>
    if ¬g.isActive ∨ g.isEaten then
      let r := processCollisions gs ppos score msg expiry now wasEaten
      ⟨g :: r.ghosts, r.score, r.msg, r.expiry, r.wasEaten⟩
    else if aabbCollision ppos g.pos then
      let score2 := score + 200
      let me2 : Option String × ℤ :=
        match ghostTypeFor g.id with
        | some t => (some (t.name ++ " Gone."), now + 1000)
        | none => (msg, expiry)
      let marked := { g with isActive := false, isEaten := true }
      let r := processCollisions gs ppos score2 me2.1 me2.2 now true
      ⟨marked :: r.ghosts, r.score, r.msg, r.expiry, r.wasEaten⟩
    else
      let r := processCollisions gs ppos score msg expiry now wasEaten
      ⟨g :: r.ghosts, r.score, r.msg, r.expiry, r.wasEaten⟩

/-- The row-major scan for `GHOST_SPAWN` tiles (lines 931-938, also
lines 283-290 in `getInitialGameState`). -/
def spawnCells (grid : Grid) : List Pos :=
  ((List.range (gridRows grid)).map fun y =>
    (List.range (gridCols grid)).filterMap fun x =>
      if cellAtNat grid x y = some GHOST_SPAWN then
        some (⟨(x : ℚ), (y : ℚ)⟩ : Pos)
      else none).flatten

/-- Squared Euclidean distance used for spawn selection. -/
def dist2 (a b : Pos) : ℚ := (a.x - b.x) ^ 2 + (a.y - b.y) ^ 2

/-- `furthestSpawn` selection (lines 941-954): first strict argmax of the
squared distance, scanning in row-major order. -/
def selectFurthestSpawn (spawns : List Pos) (ppos : Pos) : Option Pos :=
  match spawns with
  | [] => none
  | s0 :: _ =>
    some ((spawns.foldl (fun acc s =>
      if acc.2 < dist2 s ppos then (s, dist2 s ppos) else acc) (s0, (-1 : ℚ))).1)

/-- Respawn the pending slot `i` at the spawn cell farthest from the player,
with direction `UP` and no queued turn (lines 926-963). -/
def activateSlot (gs : List Ghost) (grid : Grid) (ppos : Pos) (i : ℕ) : List Ghost :=
  match gs.get? i with
  | none => gs
  | some g =>
    let spawnPos :=
      match selectFurthestSpawn (spawnCells grid) ppos with
      | some p => p
      | none => ⟨((gridCols grid / 2 : ℕ) : ℚ), ((gridRows grid * 3 / 10 : ℕ) : ℚ)⟩
    gs.set i { g with isActive := true, pos := spawnPos,
                      dir := some Direction.UP, nextDir := none }

/-- Pending-agent activation (lines 921-964): find the first
`!isActive && !isEaten` slot and respawn it. -/
def activatePending (gs : List Ghost) (grid : Grid) (ppos : Pos) : List Ghost :=
  match gs.findIdx? (fun g => !g.isActive && !g.isEaten) with
  | none => gs
  | some i => activateSlot gs grid ppos i

/-- The result of one tick resolution: the new state, the new AI state, the
new value of the `winSequenceTriggered` ref, and `some delayMs` when the
deferred one-shot `WON` transition was scheduled this tick. -/
structure TickOut where
  state : GameState
  ai : AIState
  winTriggered : Bool
  schedule : Option ℕ

/-! The local bindings of the tick body (lines 850-890), as named stages:
`newPlayer`, `(newGrid, newScore)`, `movedGhosts` (plus the updated AI
state), the collision pass, and the final ghost list after possible
activation. -/

/-- `newPlayer = moveEntity(prev.player, prev.grid)` (line 850). -/
def newPlayerOf (prev : GameState) : Entity := moveEntity prev.player prev.grid

/-- `(newGrid, newScore)` after the pellet pass (lines 852-867). -/
def eatenOf (prev : GameState) : Grid × ℕ :=
  eatPellets prev.grid (newPlayerOf prev).pos prev.score

/-- `movedGhosts` plus the threaded AI state (lines 871-876). -/
def movedOf (prev : GameState) (st : AIState) : List Ghost × AIState :=
  moveActiveGhosts prev.ghosts prev.grid (newPlayerOf prev) st

/-- The collision pass outcome (lines 879-919). -/
def collOf (prev : GameState) (st : AIState) (now : ℤ) : CollOut :=
  processCollisions (movedOf prev st).1 (newPlayerOf prev).pos (eatenOf prev).2
    prev.activeMessage prev.messageExpireTimestamp now false

/-- `updatedGhosts` after the possible pending activation (lines 921-964). -/
def ghostsOf (prev : GameState) (st : AIState) (now : ℤ) : List Ghost :=
  if (collOf prev st now).wasEaten then
    activatePending (collOf prev st now).ghosts prev.grid (newPlayerOf prev).pos
  else (collOf prev st now).ghosts

/-- `allGhostsEaten` (line 967). -/
def allEatenOf (prev : GameState) (st : AIState) (now : ℤ) : Bool :=
  (ghostsOf prev st now).all (·.isEaten)

/-- One tick resolution (the `setGameState` updater of lines 847-1018).
`winTriggered` is the `winSequenceTriggered` ref, `now` is `Date.now()`.
The `new Audio(...)` side effect is presentation-only and not modelled. -/
def gameLoopTick (prev : GameState) (st : AIState) (winTriggered : Bool)
    (now : ℤ) : TickOut :=
  if prev.status ≠ GameStatus.PLAYING then ⟨prev, st, winTriggered, none⟩
  else
    ⟨{ prev with
        player := newPlayerOf prev,
        ghosts := ghostsOf prev st now,
        grid := (eatenOf prev).1,
        score := (collOf prev st now).score,
        status := prev.status,
        activeMessage := if (collOf prev st now).expiry < now then none
                         else (collOf prev st now).msg,
        messageExpireTimestamp := (collOf prev st now).expiry },
     (movedOf prev st).2,
     -- lines 966-977: deferred one-shot WON transition
     winTriggered || allEatenOf prev st now,
     if allEatenOf prev st now && !winTriggered then some 1000 else none⟩

/-- The deferred `setTimeout` callback of lines 972-974. -/
def fireWonTransition (s : GameState) : GameState :=
  { s with status := GameStatus.WON }

/-- Run a sequence of tick resolutions, threading state and the
`winSequenceTriggered` ref. -/
def runTicks : List (AIState × ℤ) → GameState → Bool → GameState × Bool
  | [], s, wt => (s, wt)
  | (ai, now) :: rest, s, wt =>
    let out := gameLoopTick s ai wt now
    runTicks rest out.state out.winTriggered

/-- Count how many of a sequence of tick resolutions schedule the deferred
`WON` transition. -/
def countFires : List (AIState × ℤ) → GameState → Bool → ℕ
  | [], _, _ => 0
  | (ai, now) :: rest, s, wt =>
    let out := gameLoopTick s ai wt now
    (if out.schedule.isSome then 1 else 0) + countFires rest out.state out.winTriggered

/-! Session initialization (lines 217-342). -/

/-- The `isValid` helper nested in `findValidPosition` (lines 226-239). -/
def fvpIsValid (grid : Grid) (x y : ℤ) (w h : ℕ) : Bool :=
  let cols : ℤ := gridCols grid
  let rows : ℤ := gridRows grid
  if x < 0 ∨ y < 0 ∨ x + w > cols ∨ y + h > rows then false
  else
    (List.range h).all fun dy =>
      (List.range w).all fun dx =>
        match grid.get? (y + dy).toNat with
        | none => false
        | some row => decide (row.get? (x + dx).toNat ≠ some WALL)

/-- The nine spiral candidates for a given offset (lines 243-253). -/
def fvpCandidates (startX startY : ℤ) (offset : ℕ) : List (ℤ × ℤ) :=
  [ (startX, startY),
    (startX + offset, startY),
    (startX - offset, startY),
    (startX, startY + offset),
    (startX, startY - offset),
    (startX + offset, startY + offset),
    (startX - offset, startY - offset),
    (startX + offset, startY - offset),
    (startX - offset, startY + offset) ]

/-- `findValidPosition(startX, startY, width, height)` (lines 224-271):
spiral search, then a bottom-center scan, then a fixed last resort. -/
def findValidPosition (grid : Grid) (startX startY : ℤ) (w h : ℕ) : Pos :=
  let cols : ℤ := gridCols grid
  let rows : ℤ := gridRows grid
  let spiral :=
    (List.range (max (gridCols grid) (gridRows grid))).findSome? fun offset =>
      (fvpCandidates startX startY offset).find? fun p => fvpIsValid grid p.1 p.2 w h
  match spiral with
  | some p => ⟨(p.1 : ℚ), (p.2 : ℚ)⟩
  | none =>
    -- lines 262-268: fallback scan near the bottom center
    let ys : List ℤ := [rows - 5, rows - 6, rows - 7, rows - 8, rows - 9, rows - 10]
    let xs : List ℤ := [cols / 2 - 2, cols / 2 - 1, cols / 2, cols / 2 + 1, cols / 2 + 2]
    let fallback := ys.findSome? fun y => (xs.find? fun x => fvpIsValid grid x y w h).map (·, y)
    match fallback with
    | some p => ⟨(p.1 : ℚ), (p.2 : ℚ)⟩
    | none => ⟨(max 1 (cols / 2 - 2) : ℚ), (max 1 (rows - 5) : ℚ)⟩

/-- `getInitialGameState()` (lines 217-342), parameterized by the grid that
`generateResponsiveMapLayout()` produced (the sizing search itself depends on
the browser viewport and is outside the core). -/
def getInitialGameState (grid : Grid) : GameState :=
  let cols : ℕ := gridCols grid
  let rows : ℕ := gridRows grid
  -- player: center bottom (`Math.floor(cols / 2)`, `Math.floor(rows * 0.85)`)
  let playerPos := findValidPosition grid (cols / 2 : ℕ) ((rows * 85 / 100 : ℕ) : ℤ)
    (Rat.ceil PLAYER_WIDTH).toNat (Rat.ceil PLAYER_HEIGHT).toNat
  let ghostSpawns := spawnCells grid
  -- `getSpawnPosition()` (lines 293-302)
  let spawnPos : Pos :=
    if ghostSpawns.length > 0 then
      (ghostSpawns.get? (ghostSpawns.length / 2)).getD ⟨0, 0⟩
    else ⟨((cols / 2 : ℕ) : ℚ), ((rows * 3 / 10 : ℕ) : ℚ)⟩
  -- lines 307-330: create 8 ghosts, first 2 active
  let ghosts : List Ghost := (List.range 8).map fun i =>
    let isActive := decide (i < 2)
    let ghostType := (GHOST_TYPES.get? i).getD ((GHOST_TYPES.get? 0).getD ⟨"", "", ""⟩)
    let ghostPos : Pos :=
      if ghostSpawns.length > 0 then
        (ghostSpawns.get? (i % ghostSpawns.length)).getD ⟨0, 0⟩
      else spawnPos
    { id := ghostType.id, pos := ghostPos, dir := some Direction.UP,
      nextDir := none, color := ghostType.color,
      isActive := isActive, isEaten := false }
  { player := { id := "p1", pos := playerPos, dir := none, nextDir := none,
                color := "yellow" },
    ghosts := ghosts,
    grid := grid,
    score := 0,
    status := GameStatus.IDLE,
    lives := 3,
    activeMessage := none,
    messageExpireTimestamp := 0 }

/-- `restartGame()` (lines 363-366): reset the win ref and replace the whole
state with a freshly generated one (no terminal-state guard). -/
def restartGame (freshGrid : Grid) (_s : GameState) (_wt : Bool) :
    GameState × Bool :=
  (getInitialGameState freshGrid, false)

/-! The maze generator (`src/constants.ts`, lines 16-21 and 282-431). -/

/-- One entry of `OBSTACLE_POSITIONS`; `kind` is the source's `type` tag. -/
structure Obstacle where
  xp : ℚ
  yp : ℚ
  kind : String
deriving DecidableEq, Repr

/-- `OBSTACLE_POSITIONS` from `src/constants.ts`. -/
def OBSTACLE_POSITIONS : List Obstacle :=
  [ ⟨0, 42 / 100, "horizontal"⟩,
    ⟨1, 80 / 100, "horizontal"⟩,
    ⟨82 / 100, 0, "vertical"⟩,
    ⟨1 / 2, 1 / 2, "u-shape"⟩ ]

/-- `textAreaStartRow = Math.max(2, Math.floor(rows * 0.12))`. -/
def textAreaStartRow (rows : ℕ) : ℕ := max 2 (rows * 12 / 100)
/-- `textAreaEndRow = Math.max(4, Math.floor(rows * 0.22))`. -/
def textAreaEndRow (rows : ℕ) : ℕ := max 4 (rows * 22 / 100)
/-- `textAreaStartCol = Math.max(2, Math.floor(cols * 0.2))`. -/
def textAreaStartCol (cols : ℕ) : ℕ := max 2 (cols * 2 / 10)
/-- `textAreaEndCol = Math.min(cols - 2, Math.floor(cols * 0.8))` (the `ℕ`
truncation in `cols - 2` agrees with JS for every `cols ≥ 2`). -/
def textAreaEndCol (cols : ℕ) : ℕ := min (cols - 2) (cols * 8 / 10)

/-- The fixed ghost-spawn table (lines 292-301), as `(x, y)` pairs in source
order. -/
def spawnTable (cols rows : ℕ) : List (ℤ × ℤ) :=
  [ (2, 2),
    ((cols : ℤ) - 3, 2),
    (2, (rows : ℤ) - 3),
    ((cols : ℤ) - 3, (rows : ℤ) - 3),
    (2, (rows : ℤ) / 2),
    ((cols : ℤ) - 3, (rows : ℤ) / 2),
    ((cols : ℤ) / 2, 5),
    ((cols : ℤ) / 2, (rows : ℤ) - 6) ]

/-- Membership of a cell in the text area rectangle. -/
def inTextArea (cols rows : ℕ) (x y : ℕ) : Prop :=
  textAreaStartRow rows ≤ y ∧ y < textAreaEndRow rows ∧
  textAreaStartCol cols ≤ x ∧ x < textAreaEndCol cols

instance (cols rows x y : ℕ) : Decidable (inTextArea cols rows x y) := by
  unfold inTextArea; infer_instance

/-- The base-grid cell classification (lines 304-328): border walls, the
carved text area, the spawn table, pellets everywhere else. -/
def baseCell (cols rows : ℕ) (x y : ℕ) : ℕ :=
  if y = 0 ∨ y = rows - 1 ∨ x = 0 ∨ x = cols - 1 then WALL
  else if inTextArea cols rows x y then EMPTY
  else if (spawnTable cols rows).any fun s => s.1 = (x : ℤ) ∧ s.2 = (y : ℤ) then GHOST_SPAWN
  else PELLET

/-- The base grid before obstacle placement. -/
def baseGrid (cols rows : ℕ) : Grid :=
  (List.range rows).map fun y => (List.range cols).map fun x => baseCell cols rows x y

/-- `canPlaceWall(x, y)` (lines 330-343), reading the current grid for the
spawn check. -/
def canPlaceWall (grid : Grid) (cols rows : ℕ) (x y : ℤ) : Bool :=
  if x < 1 ∨ x > (cols : ℤ) - 2 ∨ y < 1 ∨ y > (rows : ℤ) - 2 then false
  else if (textAreaStartRow rows : ℤ) ≤ y ∧ y < (textAreaEndRow rows : ℤ) ∧
          (textAreaStartCol cols : ℤ) ≤ x ∧ x < (textAreaEndCol cols : ℤ) then false
  else if cellAtNat grid x.toNat y.toNat = some GHOST_SPAWN then false
  else true

/-- `placeWall(x, y)` (lines 345-349). -/
def placeWall (grid : Grid) (cols rows : ℕ) (x y : ℤ) : Grid :=
  if canPlaceWall grid cols rows x y then
    match grid.get? y.toNat with
    | some row => grid.set y.toNat (row.set x.toNat WALL)
    | none => grid
  else grid

/-- `findSafeY(xArr, yBase, height)` (lines 363-375). -/
def findSafeY (grid : Grid) (cols rows : ℕ) (xArr : List ℤ) (yBase : ℤ)
    (height : ℕ) : ℤ :=
  let offsets : List ℤ := [0, -1, 1, -2, 2]
  match offsets.find? (fun off =>
    xArr.all fun tx => (List.range height).all fun i =>
      canPlaceWall grid cols rows tx (yBase + off + (i : ℤ))) with
  | some off => yBase + off
  | none => yBase

/-- Rasterize one obstacle (lines 352-428). -/
def applyObstacle (grid : Grid) (cols rows : ℕ) (ob : Obstacle) : Grid :=
  let centerX0 : ℤ := Rat.floor ((cols : ℚ) * ob.xp)
  let centerY0 : ℤ := Rat.floor ((rows : ℚ) * ob.yp)
  let minX : ℤ := 1
  let maxX : ℤ := (cols : ℤ) - 2
  let minY : ℤ := 1
  let maxY : ℤ := (rows : ℤ) - 2
  if ob.kind = "horizontal" then
    let cx1 := if centerX0 + 1 > maxX then maxX - 1 else centerX0
    let cx := if cx1 < minX then minX else cx1
    let cy := findSafeY grid cols rows [cx, cx + 1] centerY0 1
    placeWall (placeWall grid cols rows cx cy) cols rows (cx + 1) cy
  else if ob.kind = "vertical" then
    let cy1 := if centerY0 + 1 > maxY then maxY - 1 else centerY0
    let cy2 := if cy1 < minY then minY else cy1
    let cx1 := if centerX0 > maxX then maxX else centerX0
    let cx := if cx1 < minX then minX else cx1
    let cy :=
      if ¬(canPlaceWall grid cols rows cx cy2 = true) ∨
         ¬(canPlaceWall grid cols rows cx (cy2 + 1) = true) then
        if canPlaceWall grid cols rows cx (cy2 - 1) ∧ canPlaceWall grid cols rows cx cy2 then
          cy2 - 1
        else if canPlaceWall grid cols rows cx (cy2 + 1) ∧
                canPlaceWall grid cols rows cx (cy2 + 2) then
          cy2 + 1
        else cy2
      else cy2
    placeWall (placeWall grid cols rows cx cy) cols rows cx (cy + 1)
  else if ob.kind = "u-shape" then
    let cx1 := if centerX0 + 1 > maxX then maxX - 1 else centerX0
    let cx := if cx1 - 1 < minX then minX + 1 else cx1
    let cy1 := if centerY0 < minY + 1 then minY + 1 else centerY0
    let cy2 := if cy1 > maxY then maxY else cy1
    let cy := findSafeY grid cols rows [cx - 1, cx, cx + 1] cy2 1
    placeWall (placeWall (placeWall (placeWall (placeWall grid cols rows
      (cx - 1) (cy - 1)) cols rows (cx + 1) (cy - 1)) cols rows
      (cx - 1) cy) cols rows cx cy) cols rows (cx + 1) cy
  else grid

/-- `generateMapLayout(cols, rows)` (lines 282-431): base grid, then the
declarative obstacle list. -/
def generateMapLayout (cols rows : ℕ) : Grid :=
  OBSTACLE_POSITIONS.foldl (fun g ob => applyObstacle g cols rows ob)
    (baseGrid cols rows)

/-! ## Basic lemmas -/

/-- Unpacking the bounds part of a successful `isValidMove`. -/
theorem isValidMove_bounds {grid : Grid} {p : Pos} {w h : ℚ}
    (hv : isValidMove grid p w h = true) :
    0 ≤ p.x ∧ 0 ≤ p.y ∧ p.y + h ≤ (gridRows grid : ℚ) ∧
      p.x + w ≤ (gridCols grid : ℚ) := by
  unfold isValidMove at hv
  split_ifs at hv with h1 h2
  · push_neg at h1
    push_neg at h2
    exact ⟨h1.1, h1.2, le_of_not_lt (by exact fun hh => absurd hh (not_lt.mpr h2.1)),
      le_of_not_lt (by exact fun hh => absurd hh (not_lt.mpr h2.2))⟩

/-- Unpacking the cell part of a successful `isValidMove`. -/
theorem isValidMove_cells {grid : Grid} {p : Pos} {w h : ℚ}
    (hv : isValidMove grid p w h = true) {dx dy : ℕ}
    (hdx : dx ∈ footOffsets w) (hdy : dy ∈ footOffsets h) :
    cellAt grid (p.x + (dx : ℚ)) (p.y + (dy : ℚ)) ≠ some WALL := by
  unfold isValidMove at hv
  split_ifs at hv
  rw [List.all_eq_true] at hv
  have h2 := hv dy hdy
  rw [List.all_eq_true] at h2
  have h3 := h2 dx hdx
  exact of_decide_eq_true h3

/-! ## Claims -/

/-- C10: `moveEntity` returns an entity whose `id`, `color` and `nextDir`
equal the input's (only `pos` and `dir` may change), and a tick resolution
never clears the player's queued turn intent: it survives until overwritten
by a `setDirection` call. -/
theorem C10_moveEntity_frame :
    (∀ (e : Entity) (g : Grid),
      (moveEntity e g).id = e.id ∧ (moveEntity e g).color = e.color ∧
        (moveEntity e g).nextDir = e.nextDir) ∧
    (∀ (prev : GameState) (ai : AIState) (wt : Bool) (now : ℤ),
      (gameLoopTick prev ai wt now).state.player.nextDir = prev.player.nextDir) := by
  constructor
  · intro e g
    exact ⟨rfl, rfl, rfl⟩
  · intro prev ai wt now
    unfold gameLoopTick
    by_cases h : prev.status = GameStatus.PLAYING
    · rw [if_neg (not_not_intro h)]
      rfl
    · rw [if_pos h]

/-- C6: with the player at `x = cols − w` (w = `PLAYER_WIDTH`) and an active
direction RIGHT on a row whose footprint is wall-free, `moveEntity` places it
at `x = 0` on the next tick; and in general the shared wrap normalization
snaps a raw target more than one cell outside the travel range to the
opposite edge. -/
theorem C6_wrap_right_edge :
    (∀ (grid : Grid) (e : Entity) (y : ℚ),
      3 ≤ gridCols grid →
      e.pos = ⟨(gridCols grid : ℚ) - PLAYER_WIDTH, y⟩ →
      e.dir = some Direction.RIGHT →
      e.nextDir = none →
      isValidMove grid ⟨(gridCols grid : ℚ) - PLAYER_WIDTH, y⟩ PLAYER_WIDTH
        PLAYER_HEIGHT = true →
      (moveEntity e grid).pos = ⟨0, y⟩) ∧
    (∀ (len size t : ℚ),
      (t < -1 → wrapCoord len size t = len - size) ∧
      (size ≤ len → t > len - size + 1 → wrapCoord len size t = 0)) := by
  constructor
  · intro grid e y hcols hpos hdir hnd hval
    have hpw : PLAYER_WIDTH = 3 := by decide
    have hph : PLAYER_HEIGHT = 5 := by decide
    obtain ⟨hx0, hy0, hyr, hxc⟩ := isValidMove_bounds hval
    have hy0' : (0 : ℚ) ≤ y := hy0
    have hyr' : y + 5 ≤ (gridRows grid : ℚ) := by
      have := hyr
      rw [hph] at this
      exact this
    have hcols3 : (3 : ℚ) ≤ (gridCols grid : ℚ) := by exact_mod_cast hcols
    have e1 : wrapCoord (gridCols grid : ℚ) PLAYER_WIDTH
        ((gridCols grid : ℚ) - PLAYER_WIDTH + 1) =
        (gridCols grid : ℚ) - PLAYER_WIDTH + 1 := by
      unfold wrapCoord
      rw [if_neg (by rw [hpw]; push_neg; linarith),
          if_neg (by push_neg; exact le_refl _)]
    have e2 : wrapCoord (gridRows grid : ℚ) PLAYER_HEIGHT y = y := by
      unfold wrapCoord
      rw [if_neg (by push_neg; linarith),
          if_neg (by push_neg; rw [hph]; linarith)]
    have e3 : max 0 (min ((gridCols grid : ℚ) - PLAYER_WIDTH + 1)
        ((gridCols grid : ℚ) - PLAYER_WIDTH)) = (gridCols grid : ℚ) - PLAYER_WIDTH := by
      rw [min_eq_right (by linarith), max_eq_right (by rw [hpw]; linarith)]
    have e4 : max 0 (min y ((gridRows grid : ℚ) - PLAYER_HEIGHT)) = y := by
      rw [min_eq_left (by rw [hph]; linarith), max_eq_right hy0']
    unfold moveEntity
    simp only [hnd, hdir, hpos, MOVEMENT_VECTORS, Pos.mk_x, Pos.mk_y, add_zero]
    rw [e1, e2, e3, e4, if_pos hval]
    rw [if_pos (by rw [hpw]; linarith), if_neg (by push_neg; rw [hph]; linarith),
        if_neg (by push_neg; linarith)]
  · intro len size t
    constructor
    · intro h
      unfold wrapCoord
      rw [if_pos h]
    · intro hsz h
      unfold wrapCoord
      rw [if_neg (by push_neg; linarith), if_pos h]

/-- Witness for C6: a 10-column, 7-row all-EMPTY grid, player at
`(7, 1) = (cols − 3, 1)` moving RIGHT, lands at `x = 0`. -/
def c6Grid : Grid := List.replicate 7 (List.replicate 10 EMPTY)

def c6Player : Entity :=
  { id := "p1", pos := ⟨7, 1⟩, dir := some Direction.RIGHT, nextDir := none,
    color := "yellow" }

theorem C6_wrap_right_edge_witness :
    isValidMove c6Grid ⟨(gridCols c6Grid : ℚ) - PLAYER_WIDTH, 1⟩ PLAYER_WIDTH
        PLAYER_HEIGHT = true ∧
    (moveEntity c6Player c6Grid).pos = ⟨0, 1⟩ := by
  refine ⟨by decide, ?_⟩
  exact C6_wrap_right_edge.1 c6Grid c6Player 1 (by decide) (by decide) rfl rfl (by decide)

/-- A terminal (`WON`) session state over the 10x7 open grid, used to test
the terminal-state behavior of `setDirection` and `restartGame`. -/
def c8State : GameState :=
  { getInitialGameState c6Grid with status := GameStatus.WON, score := 100 }

/-- C8 counterexample: in a terminal state, `restartGame` is not a no-op —
it replaces the whole session state by a freshly generated one (here the
score drops from 100 to 0 and the status returns to `IDLE`). -/
theorem C8_restart_not_noop :
    c8State.status = GameStatus.WON ∧ (restartGame c6Grid c8State true).1 ≠ c8State := by
  exact ⟨rfl, by decide⟩

/-- C8 (amended): while the session is in a terminal state (`WON` or
`GAME_OVER`), `setDirection` is a no-op; `restartGame`, however, carries no
terminal-state guard and always replaces the state with a fresh initial
session (resetting the win-sequence flag). -/
theorem C8_terminal_state_operations :
    (∀ (s : GameState) (d : Direction),
      s.status = GameStatus.WON ∨ s.status = GameStatus.GAME_OVER →
      setDirection s d = s) ∧
    (∀ (g : Grid) (s : GameState) (wt : Bool),
      restartGame g s wt = (getInitialGameState g, false)) := by
  constructor
  · intro s d h
    unfold setDirection
    rcases h with h | h
    · rw [if_pos ⟨by rw [h]; decide, by rw [h]; decide⟩]
    · rw [if_pos ⟨by rw [h]; decide, by rw [h]; decide⟩]
  · intro g s wt
    rfl

/-- Witness for C8: applying the amended theorem at the concrete terminal
state discharges its hypothesis. -/
theorem C8_terminal_state_operations_witness :
    (c8State.status = GameStatus.WON ∨ c8State.status = GameStatus.GAME_OVER) ∧
    setDirection c8State Direction.UP = c8State := by
  refine ⟨Or.inl rfl, ?_⟩
  exact C8_terminal_state_operations.1 c8State Direction.UP (Or.inl rfl)

/-! C7: global agent pacing. -/

/-- A 10x8 all-EMPTY grid for the pacing scenario. -/
def c7Grid : Grid := List.replicate 8 (List.replicate 10 EMPTY)

/-- Fresh AI state: all counters zero, oracle constantly 0. -/
def c7AI : AIState :=
  { counters := fun _ => 0, lastTurn := fun _ => 0, gameTick := 0,
    rand := fun _ => 0, randIdx := 0 }

def c7Ghost1 : Ghost :=
  { id := "g1", pos := ⟨6, 5⟩, dir := some Direction.UP, nextDir := none,
    color := "#FF6B6B", isActive := true, isEaten := false }

def c7Ghost2 : Ghost :=
  { id := "g2", pos := ⟨5, 3⟩, dir := some Direction.UP, nextDir := none,
    color := "#95A5A6", isActive := true, isEaten := false }

/-- A `PLAYING` state with two active agents on the open grid. -/
def c7State : GameState :=
  { player := { id := "p1", pos := ⟨1, 1⟩, dir := none, nextDir := none,
                color := "yellow" },
    ghosts := [c7Ghost1, c7Ghost2],
    grid := c7Grid, score := 0, status := GameStatus.PLAYING, lives := 3,
    activeMessage := none, messageExpireTimestamp := 0 }

/-- C7 counterexample: the shared counter starts this tick at a skip value
(`0 % 5 = 0`), so per the claim the whole tick is skipped and every active
agent must hold its position; in fact only the first agent holds (the skip is
per `moveGhost` invocation, the counter advancing once per active agent), and
the second active agent moves from `(5,3)` to `(6,3)` during the same tick. -/
theorem C7_per_tick_skip_counterexample :
    c7AI.counters "global_tick" % 5 = 0 ∧
    (gameLoopTick c7State c7AI false 0).state.ghosts.get? 0 = some c7Ghost1 ∧
    (gameLoopTick c7State c7AI false 0).state.ghosts.get? 1 =
      some { c7Ghost2 with pos := ⟨6, 3⟩, dir := some Direction.RIGHT } := by
  refine ⟨rfl, by decide, by decide⟩

/-- C7 (amended): the shared `global_tick` counter is read and incremented
once per `moveGhost` invocation (one invocation per active agent), not once
per tick; an invocation that finds the counter at `0 (mod 5)` leaves that
agent's position and per-agent state unchanged, so each agent individually
holds on one in five of its own movement invocations while other active
agents may still move on the same tick. -/
theorem C7_invocation_skip (ghost : Ghost) (grid : Grid) (player : Entity)
    (st : AIState) (h : st.counters "global_tick" % 5 = 0) :
    (moveGhost ghost grid player st).1 = ghost ∧
    (moveGhost ghost grid player st).2.counters "global_tick" =
      st.counters "global_tick" + 1 := by
  unfold moveGhost
  rw [if_pos h]
  exact ⟨rfl, by simp [mapSet]⟩

/-- Witness for C7's amended theorem at the concrete skip state. -/
theorem C7_invocation_skip_witness :
    c7AI.counters "global_tick" % 5 = 0 ∧
    (moveGhost c7Ghost1 c7Grid c7State.player c7AI).1 = c7Ghost1 := by
  exact ⟨rfl, (C7_invocation_skip c7Ghost1 c7Grid c7State.player c7AI rfl).1⟩

/-! C9: ghost-spawn stamping in the generator. -/

/-- Reading the base grid is reading `baseCell`. -/
theorem cellAtNat_baseGrid (cols rows x y : ℕ) (hx : x < cols) (hy : y < rows) :
    cellAtNat (baseGrid cols rows) x y = some (baseCell cols rows x y) := by
  unfold cellAtNat baseGrid
  rw [List.get?_map, List.get?_range hy, Option.map_some', Option.some_bind,
      List.get?_map, List.get?_range hx, Option.map_some']

/-- A successful `cellAtNat` read on the base grid implies in-bounds
coordinates. -/
theorem cellAtNat_baseGrid_bounds {cols rows x y : ℕ} {v : ℕ}
    (h : cellAtNat (baseGrid cols rows) x y = some v) : x < cols ∧ y < rows := by
  by_cases hy : y < rows
  · by_cases hx : x < cols
    · exact ⟨hx, hy⟩
    · exfalso
      unfold cellAtNat baseGrid at h
      rw [List.get?_map, List.get?_range hy, Option.map_some', Option.some_bind,
          List.get?_map, List.get?_eq_none.mpr (by simpa using not_lt.mp hx)] at h
      cases h
  · exfalso
    unfold cellAtNat baseGrid at h
    rw [List.get?_map, List.get?_eq_none.mpr (by simpa using not_lt.mp hy)] at h
    cases h

/-- `canPlaceWall` rejects a cell currently holding `GHOST_SPAWN`. -/
theorem canPlaceWall_spawn_false (g : Grid) (cols rows : ℕ) (x2 y2 : ℤ)
    (h : cellAtNat g x2.toNat y2.toNat = some GHOST_SPAWN) :
    canPlaceWall g cols rows x2 y2 = false := by
  unfold canPlaceWall
  by_cases hA : x2 < 1 ∨ x2 > (cols : ℤ) - 2 ∨ y2 < 1 ∨ y2 > (rows : ℤ) - 2
  · rw [if_pos hA]
  · rw [if_neg hA]
    by_cases hB : (textAreaStartRow rows : ℤ) ≤ y2 ∧ y2 < (textAreaEndRow rows : ℤ) ∧
        (textAreaStartCol cols : ℤ) ≤ x2 ∧ x2 < (textAreaEndCol cols : ℤ)
    · rw [if_pos hB]
    · rw [if_neg hB, if_pos h]

/-- `placeWall` never changes a cell currently holding `GHOST_SPAWN`: the
`canPlaceWall` guard rejects the spawn cell itself, and writes elsewhere do
not affect it. -/
theorem placeWall_preserves_spawn (g : Grid) (cols rows : ℕ) (x2 y2 : ℤ)
    (x y : ℕ) (h : cellAtNat g x y = some GHOST_SPAWN) :
    cellAtNat (placeWall g cols rows x2 y2) x y = some GHOST_SPAWN := by
  unfold placeWall
  by_cases hc : canPlaceWall g cols rows x2 y2 = true
  · rw [if_pos hc]
    -- the guard rejects the spawn cell: the write cannot be at (x, y)
    have hne : ¬(x2.toNat = x ∧ y2.toNat = y) := by
      rintro ⟨hxx, hyy⟩
      rw [canPlaceWall_spawn_false g cols rows x2 y2 (by rw [hxx, hyy]; exact h)] at hc
      cases hc
    cases hrow : g.get? y2.toNat with
    | none =>
      simp only [hrow]
      exact h
    | some row =>
      simp only [hrow]
      unfold cellAtNat at h ⊢
      by_cases hyy : y2.toNat = y
      · subst hyy
        have hlen : y2.toNat < g.length := by
          by_contra hle
          rw [List.get?_eq_none.mpr (not_lt.mp hle)] at hrow
          cases hrow
        rw [List.get?_set_eq_of_lt _ hlen, Option.some_bind]
        rw [hrow, Option.some_bind] at h
        have hxx : x2.toNat ≠ x := fun hxx => hne ⟨hxx, rfl⟩
        rw [List.get?_set_ne _ _ hxx]
        exact h
      · rw [List.get?_set_ne _ _ hyy]
        exact h
  · rw [if_neg hc]
    exact h

/-- Every obstacle preserves `GHOST_SPAWN` cells. -/
theorem applyObstacle_preserves_spawn (g : Grid) (cols rows : ℕ) (ob : Obstacle)
    (x y : ℕ) (h : cellAtNat g x y = some GHOST_SPAWN) :
    cellAtNat (applyObstacle g cols rows ob) x y = some GHOST_SPAWN := by
  unfold applyObstacle
  by_cases h1 : ob.kind = "horizontal"
  · rw [if_pos h1]
    exact placeWall_preserves_spawn _ _ _ _ _ _ _
      (placeWall_preserves_spawn _ _ _ _ _ _ _ h)
  · rw [if_neg h1]
    by_cases h2 : ob.kind = "vertical"
    · rw [if_pos h2]
      exact placeWall_preserves_spawn _ _ _ _ _ _ _
        (placeWall_preserves_spawn _ _ _ _ _ _ _ h)
    · rw [if_neg h2]
      by_cases h3 : ob.kind = "u-shape"
      · rw [if_pos h3]
        exact placeWall_preserves_spawn _ _ _ _ _ _ _
          (placeWall_preserves_spawn _ _ _ _ _ _ _
            (placeWall_preserves_spawn _ _ _ _ _ _ _
              (placeWall_preserves_spawn _ _ _ _ _ _ _
                (placeWall_preserves_spawn _ _ _ _ _ _ _ h))))
      · rw [if_neg h3]
        exact h

/-- The whole obstacle pass preserves `GHOST_SPAWN` cells. -/
theorem obstacles_preserve_spawn (obs : List Obstacle) (g : Grid)
    (cols rows : ℕ) (x y : ℕ) (h : cellAtNat g x y = some GHOST_SPAWN) :
    cellAtNat (obs.foldl (fun g2 ob => applyObstacle g2 cols rows ob) g) x y =
      some GHOST_SPAWN := by
  induction obs generalizing g with
  | nil => exact h
  | cons ob rest ih =>
    exact ih _ (applyObstacle_preserves_spawn g cols rows ob x y h)

/-- C9 counterexample: for `cols = 12`, `rows = 15` (inside the accepted
bounds), the top-left spawn-table coordinate `(2, 2)` falls inside the carved
text area and is stamped `EMPTY`, not `GHOST_SPAWN`. -/
theorem C9_spawn_swallowed_by_text_area :
    ((2 : ℤ), (2 : ℤ)) ∈ spawnTable 12 15 ∧
    cellAtNat (generateMapLayout 12 15) 2 2 = some EMPTY ∧
    cellAtNat (generateMapLayout 12 15) 2 2 ≠ some GHOST_SPAWN := by
  exact ⟨by decide, by decide, by decide⟩

/-- C9 (amended): for every accepted `cols ∈ [12,45]`, `rows ∈ [15,55]`, each
of the 8 spawn-table coordinates that does not fall inside the carved text
area holds `GHOST_SPAWN` in the generated grid (those inside the text area
are carved to `EMPTY` instead), and no wall placement ever overwrites a cell
holding `GHOST_SPAWN`. -/
theorem C9_spawn_stamping (cols rows : ℕ)
    (h1 : 12 ≤ cols) (h2 : cols ≤ 45) (h3 : 15 ≤ rows) (h4 : rows ≤ 55) :
    (∀ p ∈ spawnTable cols rows,
      ¬ inTextArea cols rows p.1.toNat p.2.toNat →
      cellAtNat (generateMapLayout cols rows) p.1.toNat p.2.toNat =
        some GHOST_SPAWN) ∧
    (∀ x y : ℕ, cellAtNat (baseGrid cols rows) x y = some GHOST_SPAWN →
      cellAtNat (generateMapLayout cols rows) x y = some GHOST_SPAWN) := by
  have key : ∀ x y : ℕ, x < cols → y < rows →
      baseCell cols rows x y = GHOST_SPAWN →
      cellAtNat (generateMapLayout cols rows) x y = some GHOST_SPAWN := by
    intro x y hx hy hb
    unfold generateMapLayout
    exact obstacles_preserve_spawn _ _ _ _ _ _
      (by rw [cellAtNat_baseGrid cols rows x y hx hy, hb])
  constructor
  · intro p hp htext
    obtain ⟨px, py⟩ := p
    have hmem := hp
    simp only [spawnTable, List.mem_cons, List.not_mem_nil, or_false,
      Prod.mk.injEq] at hmem
    have hself : px = (px.toNat : ℤ) ∧ py = (py.toNat : ℤ) := by
      rcases hmem with h8 | h8 | h8 | h8 | h8 | h8 | h8 | h8 <;>
        obtain ⟨rfl, rfl⟩ := h8 <;> exact ⟨by omega, by omega⟩
    have hbounds : px.toNat < cols ∧ py.toNat < rows ∧
        ¬(py.toNat = 0 ∨ py.toNat = rows - 1 ∨ px.toNat = 0 ∨
          px.toNat = cols - 1) := by
      rcases hmem with h8 | h8 | h8 | h8 | h8 | h8 | h8 | h8 <;>
        obtain ⟨rfl, rfl⟩ := h8 <;> omega
    have hspawn : ((spawnTable cols rows).any
        fun s => s.1 = ((px.toNat : ℕ) : ℤ) ∧ s.2 = ((py.toNat : ℕ) : ℤ)) = true := by
      rw [List.any_eq_true]
      refine ⟨(px, py), hp, ?_⟩
      exact decide_eq_true ⟨hself.1, hself.2⟩
    refine key _ _ hbounds.1 hbounds.2.1 ?_
    unfold baseCell
    rw [if_neg hbounds.2.2, if_neg htext, if_pos hspawn]
  · intro x y h
    obtain ⟨hx, hy⟩ := cellAtNat_baseGrid_bounds h
    rw [cellAtNat_baseGrid cols rows x y hx hy] at h
    exact key x y hx hy (Option.some.inj h)

/-- Witness for C9's amended theorem: for `cols = 20`, `rows = 21` the
top-left spawn `(2, 2)` lies outside the text area and is stamped. -/
theorem C9_spawn_stamping_witness :
    ¬ inTextArea 20 21 2 2 ∧
    cellAtNat (generateMapLayout 20 21) 2 2 = some GHOST_SPAWN := by
  refine ⟨by decide, ?_⟩
  exact (C9_spawn_stamping 20 21 (by decide) (by decide) (by decide)
    (by decide)).1 (2, 2) (by decide) (by decide)

/-! C3: the deferred one-shot WON transition. -/

/-- Unfolding a tick taken in the `PLAYING` state. -/
theorem gameLoopTick_eq (prev : GameState) (ai : AIState) (wt : Bool) (now : ℤ)
    (h : prev.status = GameStatus.PLAYING) :
    gameLoopTick prev ai wt now =
      ⟨{ prev with
          player := newPlayerOf prev,
          ghosts := ghostsOf prev ai now,
          grid := (eatenOf prev).1,
          score := (collOf prev ai now).score,
          status := prev.status,
          activeMessage := if (collOf prev ai now).expiry < now then none
                           else (collOf prev ai now).msg,
          messageExpireTimestamp := (collOf prev ai now).expiry },
        (movedOf prev ai).2,
        wt || allEatenOf prev ai now,
        if allEatenOf prev ai now && !wt then some 1000 else none⟩ := by
  unfold gameLoopTick
  rw [if_neg (not_not_intro h)]

/-- Unfolding a tick taken in a non-`PLAYING` state. -/
theorem gameLoopTick_not_playing (prev : GameState) (ai : AIState) (wt : Bool)
    (now : ℤ) (h : prev.status ≠ GameStatus.PLAYING) :
    gameLoopTick prev ai wt now = ⟨prev, ai, wt, none⟩ := by
  unfold gameLoopTick
  rw [if_pos h]

/-- Moving the active agents preserves the number of agent slots. -/
theorem moveActiveGhosts_length (gs : List Ghost) (grid : Grid) (p : Entity) :
    ∀ st : AIState, (moveActiveGhosts gs grid p st).1.length = gs.length := by
  induction gs with
  | nil => intro st; rfl
  | cons g rest ih =>
    intro st
    unfold moveActiveGhosts
    by_cases hg : g.isActive = true
    · rw [if_pos hg]
      simp only [List.length_cons, ih]
    · rw [if_neg hg]
      simp only [List.length_cons, ih]

/-- The collision pass preserves the number of agent slots. -/
theorem processCollisions_length (gs : List Ghost) (ppos : Pos) :
    ∀ (score : ℕ) (msg : Option String) (expiry now : ℤ) (w : Bool),
    (processCollisions gs ppos score msg expiry now w).ghosts.length = gs.length := by
  induction gs with
  | nil => intro score msg expiry now w; rfl
  | cons g rest ih =>
    intro score msg expiry now w
    unfold processCollisions
    by_cases h1 : ¬g.isActive = true ∨ g.isEaten = true
    · rw [if_pos h1]
      simp only [List.length_cons, ih]
    · rw [if_neg h1]
      by_cases h2 : aabbCollision ppos g.pos = true
      · rw [if_pos h2]
        simp only [List.length_cons, ih]
      · rw [if_neg h2]
        simp only [List.length_cons, ih]

/-- Activating one slot preserves the number of agent slots. -/
theorem activateSlot_length (gs : List Ghost) (grid : Grid) (p : Pos) (i : ℕ) :
    (activateSlot gs grid p i).length = gs.length := by
  unfold activateSlot
  cases h2 : gs.get? i with
  | none => rfl
  | some g => simp [List.length_set]

/-- The pending-agent activation preserves the number of agent slots. -/
theorem activatePending_length (gs : List Ghost) (grid : Grid) (p : Pos) :
    (activatePending gs grid p).length = gs.length := by
  unfold activatePending
  cases h1 : gs.findIdx? (fun g => !g.isActive && !g.isEaten) with
  | none => rfl
  | some i => exact activateSlot_length gs grid p i

/-- The final ghost list of a tick preserves the number of agent slots. -/
theorem ghostsOf_length (prev : GameState) (ai : AIState) (now : ℤ) :
    (ghostsOf prev ai now).length = prev.ghosts.length := by
  unfold ghostsOf
  by_cases hW : (collOf prev ai now).wasEaten = true
  · rw [if_pos hW, activatePending_length]
    unfold collOf
    rw [processCollisions_length]
    unfold movedOf
    rw [moveActiveGhosts_length]
  · rw [if_neg hW]
    unfold collOf
    rw [processCollisions_length]
    unfold movedOf
    rw [moveActiveGhosts_length]

/-- A tick with the win flag already set schedules nothing and keeps the
flag. -/
theorem gameLoopTick_wt_true (s : GameState) (ai : AIState) (now : ℤ) :
    (gameLoopTick s ai true now).schedule = none ∧
    (gameLoopTick s ai true now).winTriggered = true := by
  by_cases h : s.status = GameStatus.PLAYING
  · rw [gameLoopTick_eq s ai true now h]
    constructor
    · show (if allEatenOf s ai now && !true then some 1000 else none) = none
      simp
    · show (true || allEatenOf s ai now) = true
      simp
  · rw [gameLoopTick_not_playing s ai true now h]
    exact ⟨rfl, rfl⟩

/-- Once the win flag is set, no later tick fires the transition again. -/
theorem countFires_wt_true (l : List (AIState × ℤ)) :
    ∀ s : GameState, countFires l s true = 0 := by
  induction l with
  | nil => intro s; rfl
  | cons p rest ih =>
    intro s
    obtain ⟨ai, now⟩ := p
    simp only [countFires]
    rw [(gameLoopTick_wt_true s ai now).1, (gameLoopTick_wt_true s ai now).2, ih]
    simp

/-- A tick that schedules the transition sets the win flag. -/
theorem gameLoopTick_fire_sets_flag (s : GameState) (ai : AIState) (now : ℤ)
    (hs : (gameLoopTick s ai false now).schedule.isSome = true) :
    (gameLoopTick s ai false now).winTriggered = true := by
  by_cases h : s.status = GameStatus.PLAYING
  · rw [gameLoopTick_eq s ai false now h] at hs ⊢
    show (false || allEatenOf s ai now) = true
    cases hA : allEatenOf s ai now with
    | false =>
      exfalso
      have : (if allEatenOf s ai now && !false then some 1000 else none).isSome = true := hs
      rw [hA] at this
      simp at this
    | true => simp
  · rw [gameLoopTick_not_playing s ai false now h] at hs
    cases hs

/-- The deferred WON transition fires at most once along any tick sequence. -/
theorem countFires_le_one (l : List (AIState × ℤ)) :
    ∀ (s : GameState) (wt : Bool), countFires l s wt ≤ 1 := by
  induction l with
  | nil => intro s wt; exact Nat.zero_le 1
  | cons p rest ih =>
    intro s wt
    obtain ⟨ai, now⟩ := p
    simp only [countFires]
    cases wt with
    | true =>
      rw [(gameLoopTick_wt_true s ai now).1, (gameLoopTick_wt_true s ai now).2,
          countFires_wt_true]
      simp
    | false =>
      cases hs : (gameLoopTick s ai false now).schedule.isSome with
      | false =>
        have hb := ih (gameLoopTick s ai false now).state
          (gameLoopTick s ai false now).winTriggered
        simpa [hs] using hb
      | true =>
        rw [gameLoopTick_fire_sets_flag s ai now hs, countFires_wt_true]
        simp [hs]

/-- C3: the pool holds 8 agent slots in every session; a tick preserves the
pool size; while `PLAYING`, the deferred (1000 ms) one-shot `WON` transition
is scheduled exactly when every slot of the resulting state is `isEaten`
(equivalently, the `isEaten` count equals the pool size) and the win flag is
not yet set; no transition is scheduled outside `PLAYING`; and along any
sequence of ticks starting with the flag clear, the transition fires at most
once. -/
theorem C3_won_fires_once_when_all_eaten :
    (∀ grid : Grid, (getInitialGameState grid).ghosts.length = 8) ∧
    (∀ (prev : GameState) (ai : AIState) (wt : Bool) (now : ℤ),
      (gameLoopTick prev ai wt now).state.ghosts.length = prev.ghosts.length) ∧
    (∀ (prev : GameState) (ai : AIState) (wt : Bool) (now : ℤ),
      prev.status = GameStatus.PLAYING →
      ((gameLoopTick prev ai wt now).schedule = some 1000 ↔
        ((gameLoopTick prev ai wt now).state.ghosts.countP (·.isEaten) =
          prev.ghosts.length ∧ wt = false))) ∧
    (∀ (prev : GameState) (ai : AIState) (wt : Bool) (now : ℤ),
      prev.status ≠ GameStatus.PLAYING →
      (gameLoopTick prev ai wt now).schedule = none) ∧
    (∀ (inputs : List (AIState × ℤ)) (s : GameState),
      countFires inputs s false ≤ 1) := by
  refine ⟨?_, ?_, ?_, ?_, ?_⟩
  · intro grid
    rfl
  · intro prev ai wt now
    by_cases h : prev.status = GameStatus.PLAYING
    · rw [gameLoopTick_eq prev ai wt now h]
      exact ghostsOf_length prev ai now
    · rw [gameLoopTick_not_playing prev ai wt now h]
  · intro prev ai wt now h
    rw [gameLoopTick_eq prev ai wt now h]
    show (if allEatenOf prev ai now && !wt then some 1000 else none) = some 1000 ↔
      ((ghostsOf prev ai now).countP (·.isEaten) = prev.ghosts.length ∧ wt = false)
    have hcount : (ghostsOf prev ai now).countP (·.isEaten) = prev.ghosts.length ↔
        allEatenOf prev ai now = true := by
      rw [← ghostsOf_length prev ai now]
      unfold allEatenOf
      rw [List.countP_eq_length, List.all_eq_true]
    cases hA : allEatenOf prev ai now with
    | false =>
      cases wt <;> simp [hcount, hA]
    | true =>
      cases wt <;> simp [hcount, hA]
  · intro prev ai wt now h
    rw [gameLoopTick_not_playing prev ai wt now h]
  · intro inputs s
    exact countFires_le_one inputs s false

/-- A `PLAYING` state whose 8 agents are all already eaten. -/
def c3State : GameState :=
  { player := { id := "p1", pos := ⟨1, 1⟩, dir := none, nextDir := none,
                color := "yellow" },
    ghosts := (List.range 8).map fun i =>
      { id := "g" ++ toString (i + 1), pos := ⟨1, 1⟩, dir := none,
        nextDir := none, color := "c", isActive := false, isEaten := true },
    grid := c7Grid, score := 0, status := GameStatus.PLAYING, lives := 3,
    activeMessage := none, messageExpireTimestamp := 0 }

/-- Witness for C3: a tick on a state with all 8 agents eaten schedules the
deferred transition. -/
theorem C3_won_fires_once_when_all_eaten_witness :
    c3State.status = GameStatus.PLAYING ∧
    (gameLoopTick c3State c7AI false 0).schedule = some 1000 := by
  refine ⟨rfl, ?_⟩
  exact (C3_won_fires_once_when_all_eaten.2.2.1 c3State c7AI false 0 rfl).mpr
    ⟨by decide, rfl⟩

/-! C2/C5: pellet and score accounting. -/

/-- Total number of `PELLET` cells of a grid. -/
def pelletCount (g : Grid) : ℕ := (g.map fun row => row.countP (· == PELLET)).sum

/-- Number of cells (within the dimensions of `g`) that changed from `PELLET`
in `g` to `EMPTY` in `g2`. -/
def changedPE (g g2 : Grid) : ℕ :=
  ((List.range (gridRows g)) ×ˢ (List.range (gridCols g))).countP fun yx =>
    cellAtNat g yx.2 yx.1 == some PELLET && cellAtNat g2 yx.2 yx.1 == some EMPTY

/-- Number of agents newly marked eaten between two equally indexed lists. -/
def newlyEaten (before after : List Ghost) : ℕ :=
  (before.zip after).countP fun p2 => !p2.1.isEaten && p2.2.isEaten

/-- The collision predicate of the tick (active, not yet eaten, AABB hit). -/
def collided (ppos : Pos) (g : Ghost) : Bool :=
  g.isActive && !g.isEaten && aabbCollision ppos g.pos

/-- Membership of an (integer) cell in the player footprint scanned by the
pellet loop. -/
def inFootprint (p : Pos) (x y : ℕ) : Prop :=
  ∃ dx ∈ footOffsets PLAYER_WIDTH, ∃ dy ∈ footOffsets PLAYER_HEIGHT,
    (x : ℚ) = p.x + (dx : ℚ) ∧ (y : ℚ) = p.y + (dy : ℚ)

/-- Counting after flipping a single element of a `Nodup` list from `false`
to `true`. -/
theorem countP_flip_one {α : Type} {l : List α} (hnd : l.Nodup)
    {p q : α → Bool} {a : α} (ha : a ∈ l) (hpa : p a = false) (hqa : q a = true)
    (hoff : ∀ b ∈ l, b ≠ a → p b = q b) : l.countP q = l.countP p + 1 := by
  induction l with
  | nil => cases ha
  | cons b t ih =>
    rw [List.countP_cons, List.countP_cons]
    rcases List.mem_cons.mp ha with rfl | hat
    · have ht : t.countP q = t.countP p := by
        apply List.countP_congr
        intro c hc
        rw [hoff c (List.mem_cons_of_mem _ hc)
          (fun hce => (List.nodup_cons.mp hnd).1 (hce ▸ hc))]
      rw [hpa, hqa, ht]
      simp
    · have hba : b ≠ a := fun hbe => (List.nodup_cons.mp hnd).1 (hbe ▸ hat)
      rw [hoff b (List.mem_cons_self b t) hba,
        ih (List.nodup_cons.mp hnd).2 hat
          (fun c hc hca => hoff c (List.mem_cons_of_mem _ hc) hca)]
      omega

/-- No cell counts as changed between a grid and itself. -/
theorem changedPE_self (g : Grid) : changedPE g g = 0 := by
  unfold changedPE
  rw [List.countP_eq_zero]
  intro yx _
  cases h : cellAtNat g yx.2 yx.1 with
  | none => simp
  | some v =>
    by_cases hv : v = PELLET
    · subst hv
      decide
    · simp [hv]

/-- `setCellQ` at a readable cell: the written cell and nothing else. -/
theorem setCellQ_spec (g : Grid) (px py : ℚ) (v0 v : ℕ)
    (h : cellAt g px py = some v0) :
    cellAtNat (setCellQ g px py v) px.num.toNat py.num.toNat = some v ∧
    (∀ x y : ℕ, ¬(x = px.num.toNat ∧ y = py.num.toNat) →
      cellAtNat (setCellQ g px py v) x y = cellAtNat g x y) ∧
    gridRows (setCellQ g px py v) = gridRows g ∧
    gridCols (setCellQ g px py v) = gridCols g := by
  unfold cellAt at h
  by_cases hd : px.den = 1 ∧ py.den = 1 ∧ 0 ≤ px.num ∧ 0 ≤ py.num
  · rw [if_pos hd] at h
    unfold setCellQ
    rw [if_pos hd]
    unfold cellAtNat at h
    cases hrow : g.get? py.num.toNat with
    | none =>
      rw [hrow] at h
      cases h
    | some row =>
      rw [hrow, Option.some_bind] at h
      have hlen : py.num.toNat < g.length := by
        by_contra hle
        rw [List.get?_eq_none.mpr (not_lt.mp hle)] at hrow
        cases hrow
      have hxlen : px.num.toNat < row.length := by
        by_contra hle
        rw [List.get?_eq_none.mpr (not_lt.mp hle)] at h
        cases h
      refine ⟨?_, ?_, ?_, ?_⟩
      · unfold cellAtNat
        rw [List.get?_set_eq_of_lt _ hlen, Option.some_bind,
          List.get?_set_eq_of_lt _ hxlen]
      · intro x y hne
        unfold cellAtNat
        by_cases hy : y = py.num.toNat
        · subst hy
          rw [List.get?_set_eq_of_lt _ hlen, Option.some_bind, hrow,
            Option.some_bind]
          have hx : x ≠ px.num.toNat := fun hx => hne ⟨hx, rfl⟩
          rw [List.get?_set_ne _ _ (fun hh => hx hh.symm)]
        · rw [List.get?_set_ne _ _ (fun hh => hy hh.symm)]
      · show gridRows (g.set py.num.toNat (row.set px.num.toNat v)) = gridRows g
        unfold gridRows
        simp [List.length_set]
      · show gridCols (g.set py.num.toNat (row.set px.num.toNat v)) = gridCols g
        cases g with
        | nil => rfl
        | cons r0 rest =>
          cases hn : py.num.toNat with
          | zero =>
            rw [hn] at hrow
            have hr0 : r0 = row := by simpa [List.get?] using hrow
            subst hr0
            simp [gridCols, List.set_cons_zero, List.length_set]
          | succ n => rfl
  · rw [if_neg hd] at h
    cases h
/-- A nonnegative integral rational equals the cast of its numerator. -/
theorem rat_coe_toNat (q : ℚ) (h1 : q.den = 1) (h2 : 0 ≤ q.num) :
    ((q.num.toNat : ℕ) : ℚ) = q := by
  have h3 : ((q.num.toNat : ℤ) : ℚ) = (q.num : ℚ) := by
    rw [Int.toNat_of_nonneg h2]
  have h4 : (q.num : ℚ) = q := by
    conv_rhs => rw [← Rat.num_div_den q]
    rw [h1]
    norm_num
  rw [← h4, ← h3]
  norm_cast

/-- Unpacking a successful JS-number cell read. -/
theorem cellAt_some {g : Grid} {x y : ℚ} {v : ℕ} (h : cellAt g x y = some v) :
    x.den = 1 ∧ y.den = 1 ∧ 0 ≤ x.num ∧ 0 ≤ y.num ∧
    cellAtNat g x.num.toNat y.num.toNat = some v := by
  unfold cellAt at h
  by_cases hc : x.den = 1 ∧ y.den = 1 ∧ 0 ≤ x.num ∧ 0 ≤ y.num
  · rw [if_pos hc] at h
    exact ⟨hc.1, hc.2.1, hc.2.2.1, hc.2.2.2, h⟩
  · rw [if_neg hc] at h
    cases h

/-- Invariant carried through the pellet loop: the score counts the cleared
cells, all changes are `PELLET → EMPTY` inside the player footprint, and the
grid dimensions are stable. -/
def EatInv (g0 : Grid) (ppos : Pos) (score0 : ℕ) (acc : Grid × ℕ) : Prop :=
  acc.2 = score0 + 10 * changedPE g0 acc.1 ∧
  (∀ x y : ℕ, cellAtNat acc.1 x y ≠ cellAtNat g0 x y →
    cellAtNat g0 x y = some PELLET ∧ cellAtNat acc.1 x y = some EMPTY ∧
    inFootprint ppos x y) ∧
  gridRows acc.1 = gridRows g0 ∧ gridCols acc.1 = gridCols g0

/-- One pellet-loop cell preserves the invariant. -/
theorem eatCell_inv (g0 : Grid) (ppos : Pos) (score0 : ℕ) (acc : Grid × ℕ)
    (hI : EatInv g0 ppos score0 acc) (dx dy : ℕ)
    (hdx : dx ∈ footOffsets PLAYER_WIDTH) (hdy : dy ∈ footOffsets PLAYER_HEIGHT) :
    EatInv g0 ppos score0 (eatCell acc (ppos.x + (dx : ℚ)) (ppos.y + (dy : ℚ))) := by
  obtain ⟨hscore, hpt, hrows, hcols⟩ := hI
  unfold eatCell
  by_cases hg : (ppos.y + (dy : ℚ)) < (gridRows acc.1 : ℚ) ∧
      (ppos.x + (dx : ℚ)) < (gridCols acc.1 : ℚ)
  · rw [if_pos hg]
    by_cases hP : cellAt acc.1 (ppos.x + (dx : ℚ)) (ppos.y + (dy : ℚ)) = some PELLET
    · rw [if_pos hP]
      obtain ⟨hdn1, hdn2, hnn1, hnn2, hcn⟩ := cellAt_some hP
      set px : ℚ := ppos.x + (dx : ℚ) with hpx
      set py : ℚ := ppos.y + (dy : ℚ) with hpy
      set nx : ℕ := px.num.toNat with hnx
      set ny : ℕ := py.num.toNat with hny
      obtain ⟨hsw, hso, hsr, hsc⟩ := setCellQ_spec acc.1 px py PELLET EMPTY hP
      have hxq : ((nx : ℕ) : ℚ) = px := rat_coe_toNat px hdn1 hnn1
      have hyq : ((ny : ℕ) : ℚ) = py := rat_coe_toNat py hdn2 hnn2
      have hxlt : nx < gridCols g0 := by
        rw [← hcols]
        have h5 := hg.2
        rw [← hxq] at h5
        exact_mod_cast h5
      have hylt : ny < gridRows g0 := by
        rw [← hrows]
        have h5 := hg.1
        rw [← hyq] at h5
        exact_mod_cast h5
      have hg0P : cellAtNat g0 nx ny = some PELLET := by
        by_cases hsame : cellAtNat acc.1 nx ny = cellAtNat g0 nx ny
        · rw [← hsame]
          exact hcn
        · exfalso
          have h2 := (hpt nx ny hsame).2.1
          rw [hcn] at h2
          exact absurd (Option.some.inj h2) (by decide)
      have hfoot : inFootprint ppos nx ny :=
        ⟨dx, hdx, dy, hdy, by rw [hxq], by rw [hyq]⟩
      have hflip : changedPE g0 (setCellQ acc.1 px py EMPTY) =
          changedPE g0 acc.1 + 1 := by
        unfold changedPE
        refine @countP_flip_one (ℕ × ℕ) _ ?_ _ _ (ny, nx) ?_ ?_ ?_ ?_
        · exact List.Nodup.product (List.nodup_range _) (List.nodup_range _)
        · exact List.mem_product.mpr ⟨List.mem_range.mpr hylt, List.mem_range.mpr hxlt⟩
        · show (cellAtNat g0 nx ny == some PELLET &&
            cellAtNat acc.1 nx ny == some EMPTY) = false
          rw [hcn]
          simp [PELLET, EMPTY]
        · show (cellAtNat g0 nx ny == some PELLET &&
            cellAtNat (setCellQ acc.1 px py EMPTY) nx ny == some EMPTY) = true
          rw [hg0P, hsw]
          simp
        · rintro ⟨by2, bx2⟩ _ hbne
          show (cellAtNat g0 bx2 by2 == some PELLET &&
              cellAtNat acc.1 bx2 by2 == some EMPTY) =
            (cellAtNat g0 bx2 by2 == some PELLET &&
              cellAtNat (setCellQ acc.1 px py EMPTY) bx2 by2 == some EMPTY)
          rw [hso bx2 by2 (fun hh => hbne (by rw [hh.1, hh.2]))]
      refine ⟨?_, ?_, ?_, ?_⟩
      · show acc.2 + 10 = score0 + 10 * changedPE g0 (setCellQ acc.1 px py EMPTY)
        rw [hflip, hscore]
        ring
      · intro x y hdiff
        by_cases hat : x = nx ∧ y = ny
        · obtain ⟨rfl, rfl⟩ := hat
          exact ⟨hg0P, hsw, hfoot⟩
        · rw [hso x y hat] at hdiff ⊢
          exact hpt x y hdiff
      · rw [hsr]
        exact hrows
      · rw [hsc]
        exact hcols
    · rw [if_neg hP]
      exact ⟨hscore, hpt, hrows, hcols⟩
  · rw [if_neg hg]
    exact ⟨hscore, hpt, hrows, hcols⟩

/-- The whole pellet loop preserves the invariant from the initial state. -/
theorem eatPellets_inv (g0 : Grid) (ppos : Pos) (score0 : ℕ) :
    EatInv g0 ppos score0 (eatPellets g0 ppos score0) := by
  have hinner : ∀ (dy : ℕ), dy ∈ footOffsets PLAYER_HEIGHT →
      ∀ (dxs : List ℕ), (∀ d ∈ dxs, d ∈ footOffsets PLAYER_WIDTH) →
      ∀ acc, EatInv g0 ppos score0 acc →
      EatInv g0 ppos score0 (dxs.foldl
        (fun acc2 (dx : ℕ) => eatCell acc2 (ppos.x + (dx : ℚ)) (ppos.y + (dy : ℚ))) acc) := by
    intro dy hdy dxs
    induction dxs with
    | nil => intro _ acc hacc; exact hacc
    | cons d t ih =>
      intro hsub acc hacc
      exact ih (fun e he => hsub e (List.mem_cons_of_mem _ he)) _
        (eatCell_inv g0 ppos score0 acc hacc d dy (hsub d (List.mem_cons_self _ _)) hdy)
  have houter : ∀ (dys : List ℕ), (∀ d ∈ dys, d ∈ footOffsets PLAYER_HEIGHT) →
      ∀ acc, EatInv g0 ppos score0 acc →
      EatInv g0 ppos score0 (dys.foldl (fun acc2 (dy : ℕ) => (footOffsets PLAYER_WIDTH).foldl
        (fun acc3 (dx : ℕ) => eatCell acc3 (ppos.x + (dx : ℚ)) (ppos.y + (dy : ℚ))) acc2) acc) := by
    intro dys
    induction dys with
    | nil => intro _ acc hacc; exact hacc
    | cons d t ih =>
      intro hsub acc hacc
      exact ih (fun e he => hsub e (List.mem_cons_of_mem _ he)) _
        (hinner d (hsub d (List.mem_cons_self _ _)) _ (fun e he => he) acc hacc)
  have hinit : EatInv g0 ppos score0 (g0, score0) := by
    refine ⟨?_, ?_, rfl, rfl⟩
    · show score0 = score0 + 10 * changedPE g0 g0
      rw [changedPE_self]
      omega
    · intro x y hdiff
      exact absurd rfl hdiff
  exact houter (footOffsets PLAYER_HEIGHT) (fun e he => he) (g0, score0) hinit

/-! Collision accounting (lines 889-919), toward the score and marking
claims. -/

/-- The per-agent update applied by the collision pass. -/
def markIf (ppos : Pos) (g : Ghost) : Ghost :=
  if collided ppos g then { g with isActive := false, isEaten := true } else g

/-- An agent skipped by the collision pass (inactive or already eaten) does
not count as collided. -/
theorem collided_false_of_skip (ppos : Pos) (g : Ghost)
    (h : ¬g.isActive = true ∨ g.isEaten = true) : collided ppos g = false := by
  unfold collided
  rcases h with h | h
  · rw [Bool.not_eq_true] at h
    rw [h]
    rfl
  · rw [h]
    simp

/-- An agent that passes the skip test and the AABB test counts as
collided. -/
theorem collided_true_of_hit (ppos : Pos) (g : Ghost)
    (ha : g.isActive = true) (he : g.isEaten = false)
    (hb : aabbCollision ppos g.pos = true) : collided ppos g = true := by
  unfold collided
  rw [ha, he, hb]
  rfl

/-- The agent list produced by the collision pass is the pointwise marking. -/
theorem processCollisions_ghosts (gs : List Ghost) (ppos : Pos) :
    ∀ (score : ℕ) (msg : Option String) (expiry now : ℤ) (w : Bool),
    (processCollisions gs ppos score msg expiry now w).ghosts
      = gs.map (markIf ppos) := by
  induction gs with
  | nil => intro score msg expiry now w; rfl
  | cons g t ih =>
    intro score msg expiry now w
    unfold processCollisions
    by_cases h1 : ¬g.isActive = true ∨ g.isEaten = true
    · rw [if_pos h1]
      have hm : markIf ppos g = g := by
        unfold markIf
        rw [collided_false_of_skip ppos g h1]
        rfl
      simp only [List.map_cons, ih, hm]
    · rw [if_neg h1]
      push_neg at h1
      obtain ⟨ha, he⟩ := h1
      replace he := Bool.eq_false_iff.mpr he
      by_cases h2 : aabbCollision ppos g.pos = true
      · rw [if_pos h2]
        have hm : markIf ppos g = { g with isActive := false, isEaten := true } := by
          unfold markIf
          rw [collided_true_of_hit ppos g ha he h2]
          rfl
        simp only [List.map_cons, ih, hm]
      · rw [if_neg h2]
        replace h2 := Bool.eq_false_iff.mpr h2
        have hm : markIf ppos g = g := by
          unfold markIf collided
          rw [ha, he, h2]
          rfl
        simp only [List.map_cons, ih, hm]

/-- The collision pass adds exactly 200 per collided agent to the score. -/
theorem processCollisions_score (gs : List Ghost) (ppos : Pos) :
    ∀ (score : ℕ) (msg : Option String) (expiry now : ℤ) (w : Bool),
    (processCollisions gs ppos score msg expiry now w).score
      = score + 200 * gs.countP (collided ppos) := by
  induction gs with
  | nil => intro score msg expiry now w; simp [processCollisions]
  | cons g t ih =>
    intro score msg expiry now w
    unfold processCollisions
    by_cases h1 : ¬g.isActive = true ∨ g.isEaten = true
    · rw [if_pos h1]
      simp only [ih, List.countP_cons, collided_false_of_skip ppos g h1]
      simp
    · rw [if_neg h1]
      push_neg at h1
      obtain ⟨ha, he⟩ := h1
      replace he := Bool.eq_false_iff.mpr he
      by_cases h2 : aabbCollision ppos g.pos = true
      · rw [if_pos h2]
        simp only [ih, List.countP_cons, collided_true_of_hit ppos g ha he h2]
        simp
        omega
      · rw [if_neg h2]
        replace h2 := Bool.eq_false_iff.mpr h2
        have hc : collided ppos g = false := by
          unfold collided
          rw [ha, he, h2]
          rfl
        simp only [ih, List.countP_cons, hc]
        simp

/-- `moveGhost` never changes an agent\x27s identity, activity, or eaten
flag. -/
theorem moveGhost_fields (g : Ghost) (grid : Grid) (player : Entity)
    (st : AIState) :
    (moveGhost g grid player st).1.id = g.id ∧
    (moveGhost g grid player st).1.isActive = g.isActive ∧
    (moveGhost g grid player st).1.isEaten = g.isEaten := by
  unfold moveGhost
  dsimp only
  refine ⟨?_, ?_, ?_⟩
  · simp only [apply_ite (fun p : Ghost × AIState => Ghost.id p.1), ite_self]
  · simp only [apply_ite (fun p : Ghost × AIState => Ghost.isActive p.1), ite_self]
  · simp only [apply_ite (fun p : Ghost × AIState => Ghost.isEaten p.1), ite_self]

/-- Mapping a `moveGhost`-invariant projection over the moved agent list. -/
theorem moveActiveGhosts_map {α : Type} (grid : Grid) (player : Entity)
    (f : Ghost → α)
    (hf : ∀ (g : Ghost) (st : AIState), f (moveGhost g grid player st).1 = f g) :
    ∀ (gs : List Ghost) (st : AIState),
    (moveActiveGhosts gs grid player st).1.map f = gs.map f := by
  intro gs
  induction gs with
  | nil => intro st; rfl
  | cons g t ih =>
    intro st
    unfold moveActiveGhosts
    by_cases hg : g.isActive = true
    · rw [if_pos hg]
      simp only [List.map_cons, ih, hf]
    · rw [if_neg hg]
      simp only [List.map_cons, ih]

/-- Setting a slot to the value it already holds is the identity. -/
theorem set_get_same {α : Type} :
    ∀ (l : List α) (n : ℕ) (a : α), l.get? n = some a → l.set n a = l := by
  intro l
  induction l with
  | nil => intro n a h; cases h
  | cons b t ih =>
    intro n a h
    cases n with
    | zero =>
      have hb : b = a := by
        have h2 : some b = some a := h
        exact Option.some.inj h2
      rw [List.set_cons_zero, hb]
    | succ m =>
      have h2 : t.get? m = some a := h
      rw [List.set_cons_succ, ih m a h2]

/-- Activating one slot does not change any agent\x27s eaten flag. -/
theorem activateSlot_map_isEaten (gs : List Ghost) (grid : Grid) (ppos : Pos)
    (i : ℕ) :
    (activateSlot gs grid ppos i).map Ghost.isEaten = gs.map Ghost.isEaten := by
  unfold activateSlot
  cases hg : gs.get? i with
  | none => rfl
  | some g =>
    rw [List.map_set]
    apply set_get_same
    rw [List.get?_map, hg]
    rfl

/-- The pending-agent activation does not change any agent\x27s eaten flag. -/
theorem activatePending_map_isEaten (gs : List Ghost) (grid : Grid)
    (ppos : Pos) :
    (activatePending gs grid ppos).map Ghost.isEaten = gs.map Ghost.isEaten := by
  unfold activatePending
  cases h1 : gs.findIdx? (fun g => !g.isActive && !g.isEaten) with
  | none => rfl
  | some i => exact activateSlot_map_isEaten gs grid ppos i

/-- Newly set flags between two equally indexed flag lists. -/
def countFlags (xs ys : List Bool) : ℕ :=
  (xs.zip ys).countP fun p => !p.1 && p.2

/-- `newlyEaten` only reads the eaten flags of the two lists. -/
theorem newlyEaten_eq_countFlags (b a : List Ghost) :
    newlyEaten b a
      = countFlags (b.map Ghost.isEaten) (a.map Ghost.isEaten) := by
  unfold newlyEaten countFlags
  rw [List.zip_map, List.countP_map]
  rfl

/-- Marking by the collision predicate flips exactly the collided agents\x27
eaten flags. -/
theorem newlyEaten_markIf (gs : List Ghost) (ppos : Pos) :
    newlyEaten gs (gs.map (markIf ppos)) = gs.countP (collided ppos) := by
  induction gs with
  | nil => rfl
  | cons g t ih =>
    unfold newlyEaten at ih ⊢
    rw [List.map_cons]
    show List.countP _ ((g, markIf ppos g) :: t.zip (t.map (markIf ppos))) = _
    rw [List.countP_cons, List.countP_cons, ih]
    have hflag : (!g.isEaten && (markIf ppos g).isEaten) = collided ppos g := by
      by_cases hc : collided ppos g = true
      · have hne : g.isEaten = false := by
          unfold collided at hc
          cases hE : g.isEaten
          · rfl
          · rw [hE] at hc
            simp at hc
        unfold markIf
        rw [hc, hne]
        rfl
      · replace hc := Bool.eq_false_iff.mpr hc
        unfold markIf
        rw [hc]
        show (!g.isEaten && g.isEaten) = false
        cases g.isEaten <;> rfl
    rw [hflag]

/-- The per-tick score equation while `PLAYING`. -/
theorem tick_score_eq (prev : GameState) (st : AIState) (wt : Bool)
    (now : ℤ) (h : prev.status = GameStatus.PLAYING) :
    (gameLoopTick prev st wt now).state.score
      = prev.score
        + 10 * changedPE prev.grid (gameLoopTick prev st wt now).state.grid
        + 200 * newlyEaten prev.ghosts
            (gameLoopTick prev st wt now).state.ghosts := by
  rw [gameLoopTick_eq prev st wt now h]
  have hscore : (collOf prev st now).score
      = (eatenOf prev).2
        + 200 * (movedOf prev st).1.countP (collided (newPlayerOf prev).pos) := by
    unfold collOf
    rw [processCollisions_score]
  have heat : (eatenOf prev).2
      = prev.score + 10 * changedPE prev.grid (eatenOf prev).1 :=
    (eatPellets_inv prev.grid (newPlayerOf prev).pos prev.score).1
  have hne : newlyEaten prev.ghosts (ghostsOf prev st now)
      = (movedOf prev st).1.countP (collided (newPlayerOf prev).pos) := by
    have h1 : (ghostsOf prev st now).map Ghost.isEaten
        = ((movedOf prev st).1.map (markIf (newPlayerOf prev).pos)).map
            Ghost.isEaten := by
      unfold ghostsOf
      by_cases hw : (collOf prev st now).wasEaten = true
      · rw [if_pos hw, activatePending_map_isEaten]
        unfold collOf
        rw [processCollisions_ghosts]
      · rw [if_neg hw]
        unfold collOf
        rw [processCollisions_ghosts]
    have h2 : prev.ghosts.map Ghost.isEaten
        = (movedOf prev st).1.map Ghost.isEaten := by
      unfold movedOf
      rw [moveActiveGhosts_map prev.grid (newPlayerOf prev) Ghost.isEaten
        (fun g2 st2 => (moveGhost_fields g2 prev.grid (newPlayerOf prev) st2).2.2)]
    rw [newlyEaten_eq_countFlags, h1, h2, ← newlyEaten_eq_countFlags,
      newlyEaten_markIf]
  show (collOf prev st now).score
    = prev.score + 10 * changedPE prev.grid (eatenOf prev).1
      + 200 * newlyEaten prev.ghosts (ghostsOf prev st now)
  rw [hscore, hne, heat]

/-- The score never decreases across one tick. -/
theorem tick_score_le (prev : GameState) (st : AIState) (wt : Bool)
    (now : ℤ) : prev.score ≤ (gameLoopTick prev st wt now).state.score := by
  by_cases h : prev.status = GameStatus.PLAYING
  · have h5 := tick_score_eq prev st wt now h
    omega
  · rw [gameLoopTick_not_playing prev st wt now h]

/-- The score never decreases across any run of ticks. -/
theorem runTicks_score_mono :
    ∀ (l : List (AIState × ℤ)) (s : GameState) (wt : Bool),
    s.score ≤ (runTicks l s wt).1.score := by
  intro l
  induction l with
  | nil => intro s wt; exact le_refl _
  | cons a rest ih =>
    intro s wt
    obtain ⟨ai, now⟩ := a
    show s.score ≤ (runTicks rest (gameLoopTick s ai wt now).state
      (gameLoopTick s ai wt now).winTriggered).1.score
    exact le_trans (tick_score_le s ai wt now) (ih _ _)

/-- C2: in a tick resolved while `PLAYING`, the new score equals the old
score plus 10 per grid cell cleared from `PELLET` to `EMPTY` this tick plus
200 per agent newly marked eaten this tick; and the score never decreases,
neither across one tick (whatever the status) nor across any run of
ticks. -/
theorem C2_score_accounting (prev : GameState) (st : AIState) (wt : Bool)
    (now : ℤ) :
    prev.score ≤ (gameLoopTick prev st wt now).state.score ∧
    (prev.status = GameStatus.PLAYING →
      (gameLoopTick prev st wt now).state.score
        = prev.score
          + 10 * changedPE prev.grid (gameLoopTick prev st wt now).state.grid
          + 200 * newlyEaten prev.ghosts
              (gameLoopTick prev st wt now).state.ghosts) ∧
    (∀ (ticks : List (AIState × ℤ)) (wt2 : Bool),
      prev.score ≤ (runTicks ticks prev wt2).1.score) :=
  ⟨tick_score_le prev st wt now, tick_score_eq prev st wt now,
   fun ticks wt2 => runTicks_score_mono ticks prev wt2⟩

/-- Overwriting one cell with `EMPTY` cannot increase a row\x27s pellet
count. -/
theorem countP_set_pellet_le (row : List ℕ) :
    ∀ nx : ℕ,
    (row.set nx EMPTY).countP (· == PELLET) ≤ row.countP (· == PELLET) := by
  induction row with
  | nil => intro nx; simp
  | cons a t ih =>
    intro nx
    cases nx with
    | zero =>
      rw [List.set_cons_zero, List.countP_cons, List.countP_cons,
        if_neg (by decide : ¬((EMPTY == PELLET) = true))]
      exact Nat.add_le_add_left (Nat.zero_le _) _
    | succ m =>
      rw [List.set_cons_succ, List.countP_cons, List.countP_cons]
      exact Nat.add_le_add_right (ih m) _

/-- Replacing one row by a row with no more pellets cannot increase the
grid\x27s pellet count. -/
theorem pelletCount_set_le (g : Grid) :
    ∀ (ny : ℕ) (r2 : List ℕ),
    (∀ row, g.get? ny = some row →
      r2.countP (· == PELLET) ≤ row.countP (· == PELLET)) →
    pelletCount (g.set ny r2) ≤ pelletCount g := by
  induction g with
  | nil => intro ny r2 h; simp [pelletCount]
  | cons row0 t ih =>
    intro ny r2 h
    cases ny with
    | zero =>
      rw [List.set_cons_zero]
      unfold pelletCount
      rw [List.map_cons, List.map_cons, List.sum_cons, List.sum_cons]
      exact Nat.add_le_add_right (h row0 rfl) _
    | succ m =>
      rw [List.set_cons_succ]
      unfold pelletCount
      rw [List.map_cons, List.map_cons, List.sum_cons, List.sum_cons]
      exact Nat.add_le_add_left (ih m r2 (fun row hr => h row hr)) _

/-- One pellet-loop cell never increases the pellet count. -/
theorem eatCell_pelletCount_le (acc : Grid × ℕ) (px py : ℚ) :
    pelletCount (eatCell acc px py).1 ≤ pelletCount acc.1 := by
  unfold eatCell
  by_cases hg : py < (gridRows acc.1 : ℚ) ∧ px < (gridCols acc.1 : ℚ)
  · rw [if_pos hg]
    by_cases hP : cellAt acc.1 px py = some PELLET
    · rw [if_pos hP]
      show pelletCount (setCellQ acc.1 px py EMPTY) ≤ pelletCount acc.1
      obtain ⟨hd1, hd2, hn1, hn2, hcn⟩ := cellAt_some hP
      unfold setCellQ
      rw [if_pos ⟨hd1, hd2, hn1, hn2⟩]
      cases hrow : acc.1.get? py.num.toNat with
      | none => exact le_refl _
      | some row =>
        apply pelletCount_set_le
        intro row2 hr2
        rw [hrow] at hr2
        rw [← Option.some.inj hr2]
        apply countP_set_pellet_le
    · rw [if_neg hP]
  · rw [if_neg hg]

/-- A fold whose step never increases the pellet count never increases it. -/
theorem foldl_pelletCount_le {α : Type} (f : (Grid × ℕ) → α → Grid × ℕ)
    (hf : ∀ acc a, pelletCount (f acc a).1 ≤ pelletCount acc.1) :
    ∀ (l : List α) (acc : Grid × ℕ),
    pelletCount ((l.foldl f acc).1) ≤ pelletCount acc.1 := by
  intro l
  induction l with
  | nil => intro acc; exact le_refl _
  | cons a t ih =>
    intro acc
    rw [List.foldl_cons]
    exact le_trans (ih (f acc a)) (hf acc a)

/-- The pellet pass never increases the pellet count. -/
theorem eatPellets_pelletCount_le (g : Grid) (ppos : Pos) (score : ℕ) :
    pelletCount (eatPellets g ppos score).1 ≤ pelletCount g := by
  unfold eatPellets
  apply foldl_pelletCount_le
    (fun acc (dy : ℕ) => (footOffsets PLAYER_WIDTH).foldl
      (fun acc2 (dx : ℕ) =>
        eatCell acc2 (ppos.x + (dx : ℚ)) (ppos.y + (dy : ℚ))) acc)
  intro acc dy
  apply foldl_pelletCount_le
  intro acc2 dx
  exact eatCell_pelletCount_le acc2 _ _

/-- C5: every change a tick resolution makes to the grid is a cell going
from `PELLET` to `EMPTY` under the player\x27s new footprint, and the count
of `PELLET` cells never increases across a tick. -/
theorem C5_grid_changes (prev : GameState) (st : AIState) (wt : Bool)
    (now : ℤ) :
    (∀ x y : ℕ,
      cellAtNat (gameLoopTick prev st wt now).state.grid x y
          ≠ cellAtNat prev.grid x y →
        cellAtNat prev.grid x y = some PELLET ∧
        cellAtNat (gameLoopTick prev st wt now).state.grid x y = some EMPTY ∧
        inFootprint (newPlayerOf prev).pos x y) ∧
    pelletCount (gameLoopTick prev st wt now).state.grid
      ≤ pelletCount prev.grid := by
  by_cases h : prev.status = GameStatus.PLAYING
  · rw [gameLoopTick_eq prev st wt now h]
    constructor
    · intro x y hdiff
      exact (eatPellets_inv prev.grid (newPlayerOf prev).pos prev.score).2.1
        x y hdiff
    · exact eatPellets_pelletCount_le prev.grid (newPlayerOf prev).pos prev.score
  · rw [gameLoopTick_not_playing prev st wt now h]
    exact ⟨fun x y hdiff => absurd rfl hdiff, le_refl _⟩

/-! The UI-message accumulator of the collision pass (lines 902-908). -/

/-- One collided agent\x27s effect on the `(message, expiry)` accumulator. -/
def collMsgStep (now : ℤ) (me : Option String × ℤ) (g : Ghost) :
    Option String × ℤ :=
  match ghostTypeFor g.id with
  | some t => (some (t.name ++ " Gone."), now + 1000)
  | none => me

/-- The collision pass folds `collMsgStep` over the collided agents in list
order. -/
theorem processCollisions_msg (gs : List Ghost) (ppos : Pos) :
    ∀ (score : ℕ) (msg : Option String) (expiry now : ℤ) (w : Bool),
    ((processCollisions gs ppos score msg expiry now w).msg,
     (processCollisions gs ppos score msg expiry now w).expiry)
      = (gs.filter (collided ppos)).foldl (collMsgStep now) (msg, expiry) := by
  induction gs with
  | nil => intro score msg expiry now w; rfl
  | cons g t ih =>
    intro score msg expiry now w
    unfold processCollisions
    by_cases h1 : ¬g.isActive = true ∨ g.isEaten = true
    · rw [if_pos h1, List.filter_cons, collided_false_of_skip ppos g h1,
        if_neg (by decide : ¬(false = true))]
      show ((processCollisions t ppos score msg expiry now w).msg,
            (processCollisions t ppos score msg expiry now w).expiry) = _
      exact ih score msg expiry now w
    · rw [if_neg h1]
      push_neg at h1
      obtain ⟨ha, he⟩ := h1
      replace he := Bool.eq_false_iff.mpr he
      by_cases h2 : aabbCollision ppos g.pos = true
      · rw [if_pos h2, List.filter_cons, collided_true_of_hit ppos g ha he h2,
          if_pos rfl, List.foldl_cons]
        cases hgt : ghostTypeFor g.id with
        | some ty =>
          have hstep : collMsgStep now (msg, expiry) g
              = (some (ty.name ++ " Gone."), now + 1000) := by
            unfold collMsgStep
            rw [hgt]
          rw [hstep]
          show ((processCollisions t ppos (score + 200)
                  (some (ty.name ++ " Gone.")) (now + 1000) now true).msg,
                (processCollisions t ppos (score + 200)
                  (some (ty.name ++ " Gone.")) (now + 1000) now true).expiry) = _
          exact ih (score + 200) (some (ty.name ++ " Gone.")) (now + 1000) now true
        | none =>
          have hstep : collMsgStep now (msg, expiry) g = (msg, expiry) := by
            unfold collMsgStep
            rw [hgt]
          rw [hstep]
          show ((processCollisions t ppos (score + 200) msg expiry now true).msg,
                (processCollisions t ppos (score + 200) msg expiry now true).expiry)
              = _
          exact ih (score + 200) msg expiry now true
      · replace h2 := Bool.eq_false_iff.mpr h2
        have hc : collided ppos g = false := by
          unfold collided
          rw [ha, he, h2]
          rfl
        rw [if_neg (by rw [h2]; exact Bool.false_ne_true), List.filter_cons, hc,
          if_neg (by decide : ¬(false = true))]
        show ((processCollisions t ppos score msg expiry now w).msg,
              (processCollisions t ppos score msg expiry now w).expiry) = _
        exact ih score msg expiry now w

/-- A list with a known last element splits off that element. -/
theorem exists_append_of_getLast {α : Type} :
    ∀ (l : List α) (a : α), l.getLast? = some a → ∃ l2, l = l2 ++ [a] := by
  intro l
  induction l with
  | nil => intro a h; cases h
  | cons b t ih =>
    intro a h
    cases t with
    | nil =>
      have hb : b = a := by
        have h2 : some b = some a := h
        exact Option.some.inj h2
      exact ⟨[], by rw [hb, List.nil_append]⟩
    | cons c t2 =>
      have h2 : (c :: t2).getLast? = some a := by
        rw [← List.getLast?_cons_cons]
        exact h
      obtain ⟨l2, hl2⟩ := ih a h2
      exact ⟨b :: l2, by rw [List.cons_append, ← hl2]⟩

/-- Squared distances are nonnegative. -/
theorem dist2_nonneg (a b : Pos) : 0 ≤ dist2 a b := by
  unfold dist2
  positivity

/-- Invariant of the strict-argmax fold of `selectFurthestSpawn`. -/
theorem sfsFold_spec (ppos : Pos) :
    ∀ (l : List Pos) (acc : Pos × ℚ),
    (((l.foldl (fun acc s =>
        if acc.2 < dist2 s ppos then (s, dist2 s ppos) else acc) acc) = acc ∨
      ((l.foldl (fun acc s =>
        if acc.2 < dist2 s ppos then (s, dist2 s ppos) else acc) acc).1 ∈ l ∧
       (l.foldl (fun acc s =>
        if acc.2 < dist2 s ppos then (s, dist2 s ppos) else acc) acc).2
         = dist2 (l.foldl (fun acc s =>
        if acc.2 < dist2 s ppos then (s, dist2 s ppos) else acc) acc).1 ppos)) ∧
    acc.2 ≤ (l.foldl (fun acc s =>
        if acc.2 < dist2 s ppos then (s, dist2 s ppos) else acc) acc).2 ∧
    ∀ s ∈ l, dist2 s ppos ≤ (l.foldl (fun acc s =>
        if acc.2 < dist2 s ppos then (s, dist2 s ppos) else acc) acc).2) := by
  intro l
  induction l with
  | nil =>
    intro acc
    exact ⟨Or.inl rfl, le_refl _, fun s hs => absurd hs (List.not_mem_nil s)⟩
  | cons a t ih =>
    intro acc
    rw [List.foldl_cons]
    by_cases hif : acc.2 < dist2 a ppos
    · rw [if_pos hif]
      obtain ⟨hr, hle, hall⟩ := ih (a, dist2 a ppos)
      refine ⟨?_, ?_, ?_⟩
      · rcases hr with hr | hr
        · exact Or.inr ⟨by rw [hr]; exact List.mem_cons_self a t, by rw [hr]⟩
        · exact Or.inr ⟨List.mem_cons_of_mem a hr.1, hr.2⟩
      · exact le_trans (le_of_lt hif) hle
      · intro s hs
        rcases List.mem_cons.mp hs with rfl | hst
        · exact hle
        · exact hall s hst
    · rw [if_neg hif]
      obtain ⟨hr, hle, hall⟩ := ih acc
      refine ⟨?_, ?_, ?_⟩
      · rcases hr with hr | hr
        · exact Or.inl hr
        · exact Or.inr ⟨List.mem_cons_of_mem a hr.1, hr.2⟩
      · exact hle
      · intro s hs
        rcases List.mem_cons.mp hs with rfl | hst
        · exact le_trans (le_of_not_lt hif) hle
        · exact hall s hst

/-- `furthestSpawn` returns a spawn cell of maximal squared distance from
the player. -/
theorem selectFurthestSpawn_spec (spawns : List Pos) (ppos : Pos) (p : Pos)
    (h : selectFurthestSpawn spawns ppos = some p) :
    p ∈ spawns ∧ ∀ q ∈ spawns, dist2 q ppos ≤ dist2 p ppos := by
  match spawns with
  | [] => cases h
  | s0 :: rest =>
    have hp : ((s0 :: rest).foldl (fun acc s =>
        if acc.2 < dist2 s ppos then (s, dist2 s ppos) else acc)
        (s0, (-1 : ℚ))).1 = p := Option.some.inj h
    obtain ⟨hr, hle, hall⟩ := sfsFold_spec ppos (s0 :: rest) (s0, (-1 : ℚ))
    rcases hr with hr | hr
    · exfalso
      have h0 := hall s0 (List.mem_cons_self s0 rest)
      rw [hr] at h0
      have h1 : (0 : ℚ) ≤ dist2 s0 ppos := dist2_nonneg s0 ppos
      have h2 : dist2 s0 ppos ≤ (-1 : ℚ) := h0
      linarith
    · rw [hp] at hr
      refine ⟨hr.1, ?_⟩
      intro q hq
      have := hall q hq
      rw [hr.2] at this
      exact this

/-- A successful `findIdx?` yields an element satisfying the predicate. -/
theorem findIdx_pred {α : Type} (p : α → Bool) (l : List α) (i : ℕ)
    (h : l.findIdx? p = some i) : ∃ a, l.get? i = some a ∧ p a = true := by
  obtain ⟨hlt, hidx⟩ := List.findIdx?_eq_some_iff_findIdx_eq.mp h
  subst hidx
  exact ⟨l.get ⟨l.findIdx p, hlt⟩, List.get?_eq_get hlt,
    @List.findIdx_get _ p l hlt⟩

/-- The respawn position used by `activateSlot`: the furthest spawn when one
exists, else the center-ish fallback of lines 957-960. -/
def spawnPosOf (grid : Grid) (ppos : Pos) : Pos :=
  match selectFurthestSpawn (spawnCells grid) ppos with
  | some p => p
  | none => ⟨((gridCols grid / 2 : ℕ) : ℚ), ((gridRows grid * 3 / 10 : ℕ) : ℚ)⟩

/-- Unfolding `activateSlot` at an occupied slot. -/
theorem activateSlot_eq (gs : List Ghost) (grid : Grid) (ppos : Pos) (i : ℕ)
    (g : Ghost) (hget : gs.get? i = some g) :
    activateSlot gs grid ppos i
      = gs.set i
          { g with
            isActive := true,
            pos := spawnPosOf grid ppos,
            dir := some Direction.UP,
            nextDir := none } := by
  unfold activateSlot spawnPosOf
  rw [hget]

/-- The pending-agent activation either does nothing, or activates exactly
one pending slot, placing it at a spawn cell of maximal squared distance
from the player. -/
theorem activatePending_spec (gs : List Ghost) (grid : Grid) (ppos : Pos) :
    activatePending gs grid ppos = gs ∨
    ∃ (i : ℕ) (g : Ghost), gs.get? i = some g ∧ g.isActive = false ∧
      g.isEaten = false ∧
      (∀ j : ℕ, j ≠ i → (activatePending gs grid ppos).get? j = gs.get? j) ∧
      ∃ p2, (activatePending gs grid ppos).get? i
          = some { g with isActive := true, pos := p2,
                          dir := some Direction.UP, nextDir := none } ∧
        (spawnCells grid ≠ [] →
          p2 ∈ spawnCells grid ∧
          ∀ q ∈ spawnCells grid, dist2 q ppos ≤ dist2 p2 ppos) := by
  unfold activatePending
  cases hidx : gs.findIdx? (fun g => !g.isActive && !g.isEaten) with
  | none => exact Or.inl rfl
  | some i =>
    dsimp only
    obtain ⟨g, hget, hpred⟩ := findIdx_pred _ gs i hidx
    have hact : g.isActive = false := by
      cases hA : g.isActive
      · rfl
      · rw [hA] at hpred
        simp at hpred
    have heat : g.isEaten = false := by
      cases hE : g.isEaten
      · rfl
      · rw [hE] at hpred
        simp at hpred
    obtain ⟨hlt, hgeq⟩ := List.get?_eq_some.mp hget
    rw [activateSlot_eq gs grid ppos i g hget]
    refine Or.inr ⟨i, g, hget, hact, heat, ?_, ?_⟩
    · intro j hj
      exact List.get?_set_ne _ _ (fun hh => hj hh.symm)
    · refine ⟨_, List.get?_set_eq_of_lt _ hlt, ?_⟩
      intro hne
      unfold spawnPosOf
      cases hsel : selectFurthestSpawn (spawnCells grid) ppos with
      | none =>
        exfalso
        cases hsc : spawnCells grid with
        | nil => exact hne hsc
        | cons s0 rest =>
          rw [hsc] at hsel
          unfold selectFurthestSpawn at hsel
          cases hsel
      | some p => exact selectFurthestSpawn_spec (spawnCells grid) ppos p hsel

/-- C1: in a tick resolved while `PLAYING`: every moved agent that is active,
not eaten, and AABB-overlaps the player\x27s new footprint ends the tick
marked `isActive = false, isEaten = true` (same identity, same position); the
score gains exactly 200 per such agent on top of the pellet pass; when the
last collided agent has a known agent type, the tick sets the timed message
naming it, expiring 1000 ms after `now`; and at most one pending agent is
activated, placed at the `GHOST_SPAWN` cell of maximal squared distance from
the player\x27s new position, with direction reset to `UP` and the queued
turn cleared. -/
theorem C1_collision_resolution (prev : GameState) (st : AIState) (wt : Bool)
    (now : ℤ) (h : prev.status = GameStatus.PLAYING) :
    (∀ (i : ℕ) (g2 : Ghost),
      (movedOf prev st).1.get? i = some g2 →
      collided (newPlayerOf prev).pos g2 = true →
      ∃ g3, (gameLoopTick prev st wt now).state.ghosts.get? i = some g3 ∧
        g3.isActive = false ∧ g3.isEaten = true ∧ g3.id = g2.id ∧
        g3.pos = g2.pos) ∧
    ((gameLoopTick prev st wt now).state.score
      = (eatenOf prev).2
        + 200 * (movedOf prev st).1.countP (collided (newPlayerOf prev).pos)) ∧
    (∀ (glast : Ghost) (ty : GhostType),
      ((movedOf prev st).1.filter (collided (newPlayerOf prev).pos)).getLast?
          = some glast →
      ghostTypeFor glast.id = some ty →
      (gameLoopTick prev st wt now).state.activeMessage
          = some (ty.name ++ " Gone.") ∧
      (gameLoopTick prev st wt now).state.messageExpireTimestamp
          = now + 1000) ∧
    ((gameLoopTick prev st wt now).state.ghosts = (collOf prev st now).ghosts ∨
     ∃ (i : ℕ) (g2 : Ghost),
       (collOf prev st now).ghosts.get? i = some g2 ∧
       g2.isActive = false ∧ g2.isEaten = false ∧
       (∀ j : ℕ, j ≠ i →
         (gameLoopTick prev st wt now).state.ghosts.get? j
           = (collOf prev st now).ghosts.get? j) ∧
       ∃ p2, (gameLoopTick prev st wt now).state.ghosts.get? i
           = some
               { g2 with
                 isActive := true,
                 pos := p2,
                 dir := some Direction.UP,
                 nextDir := none } ∧
         (spawnCells prev.grid ≠ [] →
           p2 ∈ spawnCells prev.grid ∧
           ∀ q ∈ spawnCells prev.grid,
             dist2 q (newPlayerOf prev).pos
               ≤ dist2 p2 (newPlayerOf prev).pos)) := by
  rw [gameLoopTick_eq prev st wt now h]
  have hcollg : (collOf prev st now).ghosts
      = (movedOf prev st).1.map (markIf (newPlayerOf prev).pos) := by
    unfold collOf
    rw [processCollisions_ghosts]
  have hout : ∀ (i : ℕ) (g2 : Ghost),
      (movedOf prev st).1.get? i = some g2 →
      collided (newPlayerOf prev).pos g2 = true →
      (collOf prev st now).ghosts.get? i
        = some { g2 with isActive := false, isEaten := true } := by
    intro i g2 hg2 hc
    rw [hcollg, List.get?_map, hg2]
    show some (markIf (newPlayerOf prev).pos g2) = _
    unfold markIf
    rw [hc, if_pos rfl]
  have hd : ghostsOf prev st now = (collOf prev st now).ghosts ∨
      ∃ (i : ℕ) (g2 : Ghost),
        (collOf prev st now).ghosts.get? i = some g2 ∧
        g2.isActive = false ∧ g2.isEaten = false ∧
        (∀ j : ℕ, j ≠ i →
          (ghostsOf prev st now).get? j
            = (collOf prev st now).ghosts.get? j) ∧
        ∃ p2, (ghostsOf prev st now).get? i
            = some
                { g2 with
                  isActive := true,
                  pos := p2,
                  dir := some Direction.UP,
                  nextDir := none } ∧
          (spawnCells prev.grid ≠ [] →
            p2 ∈ spawnCells prev.grid ∧
            ∀ q ∈ spawnCells prev.grid,
              dist2 q (newPlayerOf prev).pos
                ≤ dist2 p2 (newPlayerOf prev).pos) := by
    unfold ghostsOf
    by_cases hw : (collOf prev st now).wasEaten = true
    · rw [if_pos hw]
      exact activatePending_spec (collOf prev st now).ghosts prev.grid
        (newPlayerOf prev).pos
    · rw [if_neg hw]
      exact Or.inl rfl
  refine ⟨?_, ?_, ?_, ?_⟩
  · intro i g2 hg2 hc
    have hmark := hout i g2 hg2 hc
    show ∃ g3, (ghostsOf prev st now).get? i = some g3 ∧
      g3.isActive = false ∧ g3.isEaten = true ∧ g3.id = g2.id ∧ g3.pos = g2.pos
    rcases hd with hd | ⟨i0, g0, hg0, hact0, heat0, hoth, _⟩
    · rw [hd, hmark]
      exact ⟨_, rfl, rfl, rfl, rfl, rfl⟩
    · have hne : i ≠ i0 := by
        intro hii
        rw [← hii, hmark] at hg0
        rw [Option.some.inj hg0.symm] at heat0
        exact absurd heat0 (fun hh => nomatch hh)
      rw [hoth i hne, hmark]
      exact ⟨_, rfl, rfl, rfl, rfl, rfl⟩
  · show (collOf prev st now).score = _
    unfold collOf
    rw [processCollisions_score]
  · intro glast ty hlast hgt
    have hmsg := processCollisions_msg (movedOf prev st).1 (newPlayerOf prev).pos
      (eatenOf prev).2 prev.activeMessage prev.messageExpireTimestamp now false
    obtain ⟨l2, hl2⟩ := exists_append_of_getLast _ glast hlast
    rw [hl2, List.foldl_append, List.foldl_cons, List.foldl_nil] at hmsg
    have hstep : ∀ me : Option String × ℤ,
        collMsgStep now me glast = (some (ty.name ++ " Gone."), now + 1000) := by
      intro me
      unfold collMsgStep
      rw [hgt]
    rw [hstep] at hmsg
    have hm1 : (collOf prev st now).msg = some (ty.name ++ " Gone.") :=
      congrArg Prod.fst hmsg
    have hm2 : (collOf prev st now).expiry = now + 1000 :=
      congrArg Prod.snd hmsg
    constructor
    · show (if (collOf prev st now).expiry < now then none
            else (collOf prev st now).msg) = some (ty.name ++ " Gone.")
      rw [hm2, if_neg (by omega), hm1]
    · show (collOf prev st now).expiry = now + 1000
      exact hm2
  · exact hd

/-- A playing state for instantiating the collision-resolution theorem: an
open 10x8 room with one spawn cell, one active agent overlapping the player. -/
def c1Grid : Grid :=
  (List.replicate 7 (List.replicate 10 EMPTY)) ++
    [[EMPTY, EMPTY, GHOST_SPAWN, EMPTY, EMPTY, EMPTY, EMPTY, EMPTY, EMPTY,
      EMPTY]]

/-- The colliding agent of the scenario. -/
def c1Ghost : Ghost :=
  { id := "g1", pos := ⟨6, 3⟩, dir := none, nextDir := none, color := "red",
    isActive := true, isEaten := false }

/-- The playing state of the scenario. -/
def c1State : GameState :=
  { player := { id := "player", pos := ⟨5, 2⟩, dir := none, nextDir := none,
                color := "yellow" },
    ghosts := [c1Ghost],
    grid := c1Grid, score := 0, status := GameStatus.PLAYING, lives := 3,
    activeMessage := none, messageExpireTimestamp := 0 }

/-- A fixed oracle for the scenario (all `Math.random()` calls read 0). -/
def c1AI : AIState :=
  { counters := fun _ => 0, lastTurn := fun _ => 0, gameTick := 0,
    rand := fun _ => 0, randIdx := 0 }

/-- Witness: the collision-resolution theorem applied to the scenario. -/
theorem C1_collision_resolution_witness :
    c1State.status = GameStatus.PLAYING ∧
    (gameLoopTick c1State c1AI false 0).state.score
      = (eatenOf c1State).2
        + 200 * (movedOf c1State c1AI).1.countP
            (collided (newPlayerOf c1State).pos) :=
  ⟨rfl, (C1_collision_resolution c1State c1AI false 0 rfl).2.1⟩

/-! Invariant machinery for the footprint claim: structural grid predicates
and wall-free placements, all decidable. -/

/-- Every row has the width `grid[0].length`. -/
def rectGrid (g : Grid) : Bool := g.all fun row => row.length == gridCols g

/-- The outer border of the grid is all walls. -/
def borderedGrid (g : Grid) : Bool :=
  ((List.range (gridRows g)).all fun y =>
    (cellAtNat g 0 y == some WALL) &&
    (cellAtNat g (gridCols g - 1) y == some WALL)) &&
  ((List.range (gridCols g)).all fun x =>
    (cellAtNat g x 0 == some WALL) &&
    (cellAtNat g x (gridRows g - 1) == some WALL))

/-- Every spawn cell keeps the 2x2 agent footprint inside the grid and free
of walls. -/
def spawnClear (g : Grid) : Bool :=
  (List.range (gridRows g)).all fun y =>
    (List.range (gridCols g)).all fun x =>
      !(cellAtNat g x y == some GHOST_SPAWN) ||
      (decide (x + 2 ≤ gridCols g) && decide (y + 2 ≤ gridRows g) &&
       !(cellAtNat g (x + 1) y == some WALL) &&
       !(cellAtNat g x (y + 1) == some WALL) &&
       !(cellAtNat g (x + 1) (y + 1) == some WALL))

/-- An integral, in-bounds, wall-free player placement. -/
def goodPlayerPos (g : Grid) (p : Pos) : Bool :=
  (p.x.den == 1) && (p.y.den == 1) &&
  isValidMove g p PLAYER_WIDTH PLAYER_HEIGHT

/-- An integral, in-bounds, wall-free agent placement. -/
def goodGhostPos (g : Grid) (p : Pos) : Bool :=
  (p.x.den == 1) && (p.y.den == 1) &&
  isValidMove g p GHOST_SIZE GHOST_SIZE

/-- The session invariant: structural grid conditions plus wall-free
placements of the player and of every active agent. -/
def goodState (s : GameState) : Bool :=
  rectGrid s.grid && borderedGrid s.grid && spawnClear s.grid &&
  !(spawnCells s.grid).isEmpty &&
  goodPlayerPos s.grid s.player.pos &&
  (s.ghosts.all fun gh => !gh.isActive || goodGhostPos s.grid gh.pos)

/-- Left border wall extraction. -/
theorem borderedGrid_left {g : Grid} (hb : borderedGrid g = true) {y : ℕ}
    (hy : y < gridRows g) : cellAtNat g 0 y = some WALL := by
  unfold borderedGrid at hb
  rw [Bool.and_eq_true] at hb
  rw [List.all_eq_true] at hb
  have h2 := hb.1 y (List.mem_range.mpr hy)
  rw [Bool.and_eq_true] at h2
  exact eq_of_beq h2.1

/-- Right border wall extraction. -/
theorem borderedGrid_right {g : Grid} (hb : borderedGrid g = true) {y : ℕ}
    (hy : y < gridRows g) : cellAtNat g (gridCols g - 1) y = some WALL := by
  unfold borderedGrid at hb
  rw [Bool.and_eq_true] at hb
  rw [List.all_eq_true] at hb
  have h2 := hb.1 y (List.mem_range.mpr hy)
  rw [Bool.and_eq_true] at h2
  exact eq_of_beq h2.2

/-- Top border wall extraction. -/
theorem borderedGrid_top {g : Grid} (hb : borderedGrid g = true) {x : ℕ}
    (hx : x < gridCols g) : cellAtNat g x 0 = some WALL := by
  unfold borderedGrid at hb
  rw [Bool.and_eq_true] at hb
  have h1 := hb.2
  rw [List.all_eq_true] at h1
  have h2 := h1 x (List.mem_range.mpr hx)
  rw [Bool.and_eq_true] at h2
  exact eq_of_beq h2.1

/-- Bottom border wall extraction. -/
theorem borderedGrid_bottom {g : Grid} (hb : borderedGrid g = true) {x : ℕ}
    (hx : x < gridCols g) : cellAtNat g x (gridRows g - 1) = some WALL := by
  unfold borderedGrid at hb
  rw [Bool.and_eq_true] at hb
  have h1 := hb.2
  rw [List.all_eq_true] at h1
  have h2 := h1 x (List.mem_range.mpr hx)
  rw [Bool.and_eq_true] at h2
  exact eq_of_beq h2.2

/-- Cell lookup at nonnegative integer JS numbers is the nat lookup. -/
theorem cellAt_natCast (g : Grid) (m n : ℕ) :
    cellAt g ((m : ℕ) : ℚ) ((n : ℕ) : ℚ) = cellAtNat g m n := by
  unfold cellAt
  rw [if_pos]
  · rw [Rat.num_natCast, Rat.num_natCast, Int.toNat_natCast, Int.toNat_natCast]
  · refine ⟨Rat.den_natCast m, Rat.den_natCast n, ?_, ?_⟩
    · rw [Rat.num_natCast]
      exact Int.natCast_nonneg m
    · rw [Rat.num_natCast]
      exact Int.natCast_nonneg n

/-- The one-step wrap, clamp and snap are all the identity inside the travel
range. -/
theorem commitCoord (len size x vx : ℚ)
    (hx1 : 1 ≤ x) (hx2 : x + 1 ≤ len - size)
    (hv1 : -1 ≤ vx) (hv2 : vx ≤ 1) :
    wrapCoord len size (x + vx) = x + vx ∧
    max 0 (min (x + vx) (len - size)) = x + vx ∧
    ¬(x + vx < 0) ∧ ¬(x + vx > len - size) := by
  have h0 : 0 ≤ x + vx := by linarith
  have h1 : x + vx ≤ len - size := by linarith
  refine ⟨?_, ?_, not_lt.mpr h0, not_lt.mpr h1⟩
  · unfold wrapCoord
    rw [if_neg (by linarith), if_neg (by linarith)]
  · rw [min_eq_left h1, max_eq_right h0]

/-- A predicate holding on both branches holds on the conditional. -/
theorem ite_pred {α : Type} {P : α → Prop} (c : Prop) [Decidable c] (a b : α)
    (ha : P a) (hb : P b) : P (if c then a else b) := by
  by_cases h : c
  · rw [if_pos h]
    exact ha
  · rw [if_neg h]
    exact hb

/-- Adding a unit step to an integral rational keeps it integral. -/
theorem den_add_step (q v : ℚ) (hq : q.den = 1)
    (hv : v = -1 ∨ v = 0 ∨ v = 1) : (q + v).den = 1 := by
  have hqe : q = ((q.num : ℤ) : ℚ) := by
    conv_lhs => rw [← Rat.num_div_den q]
    rw [hq]
    norm_num
  rcases hv with h | h | h <;> subst h
  · have h2 : q + (-1 : ℚ) = ((q.num - 1 : ℤ) : ℚ) := by
      conv_lhs => rw [hqe]
      push_cast
      ring
    rw [h2, Rat.den_intCast]
  · rw [add_zero]
    exact hq
  · have h2 : q + (1 : ℚ) = ((q.num + 1 : ℤ) : ℚ) := by
      conv_lhs => rw [hqe]
      push_cast
      ring
    rw [h2, Rat.den_intCast]

/-- Cell lookup after shifting nat coordinates by nat offsets. -/
theorem cellAt_cast_add (g : Grid) (m k n j : ℕ) :
    cellAt g ((m : ℚ) + ((k : ℕ) : ℚ)) ((n : ℚ) + ((j : ℕ) : ℚ))
      = cellAtNat g (m + k) (n + j) := by
  have h1 : ((m : ℚ)) + ((k : ℕ) : ℚ) = (((m + k : ℕ)) : ℚ) := by
    push_cast
    ring
  have h2 : ((n : ℚ)) + ((j : ℕ) : ℚ) = (((n + j : ℕ)) : ℚ) := by
    push_cast
    ring
  rw [h1, h2, cellAt_natCast]

/-- On a bordered grid, a valid integral placement sits strictly inside the
border frame: at least one cell away from every border wall. -/
theorem validBounds (g : Grid) (p : Pos) (w h : ℚ) (cw ch : ℕ)
    (hbord : borderedGrid g = true)
    (hxden : p.x.den = 1) (hyden : p.y.den = 1)
    (hv : isValidMove g p w h = true)
    (hcw : footOffsets w = List.range cw) (hch : footOffsets h = List.range ch)
    (hw1 : ((cw : ℚ)) - 1 < w) (hh1 : ((ch : ℚ)) - 1 < h)
    (hcw1 : 1 ≤ cw) (hch1 : 1 ≤ ch) :
    1 ≤ p.x ∧ p.x + (cw : ℚ) ≤ (gridCols g : ℚ) - 1 ∧
    1 ≤ p.y ∧ p.y + (ch : ℚ) ≤ (gridRows g : ℚ) - 1 := by
  obtain ⟨hx0, hy0, hyh, hxw⟩ := isValidMove_bounds hv
  obtain ⟨a, ha⟩ : ∃ a : ℕ, ((a : ℕ) : ℚ) = p.x :=
    ⟨p.x.num.toNat, rat_coe_toNat p.x hxden (Rat.num_nonneg.mpr hx0)⟩
  obtain ⟨b, hb⟩ : ∃ b : ℕ, ((b : ℕ) : ℚ) = p.y :=
    ⟨p.y.num.toNat, rat_coe_toNat p.y hyden (Rat.num_nonneg.mpr hy0)⟩
  have hcwq : (1 : ℚ) ≤ ((cw : ℕ) : ℚ) := by exact_mod_cast hcw1
  have hchq : (1 : ℚ) ≤ ((ch : ℕ) : ℚ) := by exact_mod_cast hch1
  have hwpos : (0 : ℚ) < w := by linarith
  have hhpos : (0 : ℚ) < h := by linarith
  have hbrows : b < gridRows g := by
    have h5 : ((b : ℕ) : ℚ) < (gridRows g : ℚ) := by
      rw [hb]
      linarith
    exact_mod_cast h5
  have hacols : a < gridCols g := by
    have h5 : ((a : ℕ) : ℚ) < (gridCols g : ℚ) := by
      rw [ha]
      linarith
    exact_mod_cast h5
  have h0w : (0 : ℕ) ∈ footOffsets w := by
    rw [hcw]
    exact List.mem_range.mpr hcw1
  have h0h : (0 : ℕ) ∈ footOffsets h := by
    rw [hch]
    exact List.mem_range.mpr hch1
  have hx1 : 1 ≤ a := by
    by_contra hlt
    push_neg at hlt
    have ha0 : a = 0 := by omega
    have hcell := isValidMove_cells hv h0w h0h
    rw [← ha, ← hb, cellAt_cast_add, ha0] at hcell
    have hwall := borderedGrid_left hbord hbrows
    rw [Nat.zero_add, Nat.add_zero] at hcell
    exact hcell hwall
  have hy1 : 1 ≤ b := by
    by_contra hlt
    push_neg at hlt
    have hb0 : b = 0 := by omega
    have hcell := isValidMove_cells hv h0w h0h
    rw [← ha, ← hb, cellAt_cast_add, hb0] at hcell
    have hwall := borderedGrid_top hbord hacols
    rw [Nat.add_zero, Nat.add_zero] at hcell
    exact hcell hwall
  have hx2 : a + cw ≤ gridCols g - 1 := by
    have hle : a + cw ≤ gridCols g := by
      have hq : ((a : ℕ) : ℚ) + ((cw : ℕ) : ℚ) - 1 < (gridCols g : ℚ) := by
        rw [ha]
        linarith
      have h5 : ((a + cw : ℕ) : ℚ) < (gridCols g : ℚ) + 1 := by
        push_cast
        linarith
      have h6 : a + cw < gridCols g + 1 := by exact_mod_cast h5
      omega
    by_contra hgt
    push_neg at hgt
    have heq : a + (cw - 1) = gridCols g - 1 := by omega
    have hdx : (cw - 1 : ℕ) ∈ footOffsets w := by
      rw [hcw]
      exact List.mem_range.mpr (by omega)
    have hcell := isValidMove_cells hv hdx h0h
    rw [← ha, ← hb, cellAt_cast_add, heq, Nat.add_zero] at hcell
    exact hcell (borderedGrid_right hbord hbrows)
  have hy2 : b + ch ≤ gridRows g - 1 := by
    have hle : b + ch ≤ gridRows g := by
      have hq : ((b : ℕ) : ℚ) + ((ch : ℕ) : ℚ) - 1 < (gridRows g : ℚ) := by
        rw [hb]
        linarith
      have h5 : ((b + ch : ℕ) : ℚ) < (gridRows g : ℚ) + 1 := by
        push_cast
        linarith
      have h6 : b + ch < gridRows g + 1 := by exact_mod_cast h5
      omega
    by_contra hgt
    push_neg at hgt
    have heq : b + (ch - 1) = gridRows g - 1 := by omega
    have hdy : (ch - 1 : ℕ) ∈ footOffsets h := by
      rw [hch]
      exact List.mem_range.mpr (by omega)
    have hcell := isValidMove_cells hv h0w hdy
    rw [← ha, ← hb, cellAt_cast_add, heq, Nat.add_zero] at hcell
    exact hcell (borderedGrid_bottom hbord hacols)
  have hc1 : 1 ≤ gridCols g := by omega
  have hr1 : 1 ≤ gridRows g := by omega
  refine ⟨?_, ?_, ?_, ?_⟩
  · rw [← ha]
    exact_mod_cast hx1
  · have h5 : ((a + cw : ℕ) : ℚ) ≤ ((gridCols g - 1 : ℕ) : ℚ) := by
      exact_mod_cast hx2
    rw [Nat.cast_sub hc1] at h5
    push_cast at h5
    rw [← ha]
    linarith
  · rw [← hb]
    exact_mod_cast hy1
  · have h5 : ((b + ch : ℕ) : ℚ) ≤ ((gridRows g - 1 : ℕ) : ℚ) := by
      exact_mod_cast hy2
    rw [Nat.cast_sub hr1] at h5
    push_cast at h5
    rw [← hb]
    linarith

/-- Inside the frame, `ghostCommit` either keeps the position or commits the
validated one-step target unchanged by wrap, clamp and snap. -/
theorem ghostCommit_id (grid : Grid) (gpos : Pos) (c : Option Direction)
    (hx1 : 1 ≤ gpos.x) (hx2 : gpos.x + 1 ≤ (gridCols grid : ℚ) - GHOST_SIZE)
    (hy1 : 1 ≤ gpos.y) (hy2 : gpos.y + 1 ≤ (gridRows grid : ℚ) - GHOST_SIZE) :
    ghostCommit grid gpos c = gpos ∨
    ∃ vx vy : ℚ, (vx = -1 ∨ vx = 0 ∨ vx = 1) ∧ (vy = -1 ∨ vy = 0 ∨ vy = 1) ∧
      ghostCommit grid gpos c = ⟨gpos.x + vx, gpos.y + vy⟩ ∧
      isValidMove grid ⟨gpos.x + vx, gpos.y + vy⟩ GHOST_SIZE GHOST_SIZE
        = true := by
  unfold ghostCommit
  dsimp only
  set V : Pos := (match c with
    | some d => MOVEMENT_VECTORS d
    | none => (⟨0, 0⟩ : Pos)) with hV
  have hVx : V.x = -1 ∨ V.x = 0 ∨ V.x = 1 := by
    rw [hV]
    cases c with
    | none => exact Or.inr (Or.inl rfl)
    | some d =>
      cases d with
      | UP => exact Or.inr (Or.inl rfl)
      | DOWN => exact Or.inr (Or.inl rfl)
      | LEFT => exact Or.inl rfl
      | RIGHT => exact Or.inr (Or.inr rfl)
  have hVy : V.y = -1 ∨ V.y = 0 ∨ V.y = 1 := by
    rw [hV]
    cases c with
    | none => exact Or.inr (Or.inl rfl)
    | some d =>
      cases d with
      | UP => exact Or.inl rfl
      | DOWN => exact Or.inr (Or.inr rfl)
      | LEFT => exact Or.inr (Or.inl rfl)
      | RIGHT => exact Or.inr (Or.inl rfl)
  have hvx1 : -1 ≤ V.x := by rcases hVx with h | h | h <;> rw [h] <;> norm_num
  have hvx2 : V.x ≤ 1 := by rcases hVx with h | h | h <;> rw [h] <;> norm_num
  have hvy1 : -1 ≤ V.y := by rcases hVy with h | h | h <;> rw [h] <;> norm_num
  have hvy2 : V.y ≤ 1 := by rcases hVy with h | h | h <;> rw [h] <;> norm_num
  obtain ⟨hwx, hcx, hsx1, hsx2⟩ :=
    commitCoord (gridCols grid : ℚ) GHOST_SIZE gpos.x V.x hx1 hx2 hvx1 hvx2
  obtain ⟨hwy, hcy, hsy1, hsy2⟩ :=
    commitCoord (gridRows grid : ℚ) GHOST_SIZE gpos.y V.y hy1 hy2 hvy1 hvy2
  rw [hwx, hwy, hcx, hcy, if_neg hsx1, if_neg hsx2, if_neg hsy1, if_neg hsy2]
  by_cases hval : isValidMove grid ⟨gpos.x + V.x, gpos.y + V.y⟩
      GHOST_SIZE GHOST_SIZE = true
  · rw [if_pos hval]
    exact Or.inr ⟨V.x, V.y, hVx, hVy, rfl, hval⟩
  · rw [if_neg hval]
    exact Or.inl rfl

/-- `moveGhost` either keeps the agent\x27s position or commits through
`ghostCommit`. -/
theorem moveGhost_pos (g : Ghost) (grid : Grid) (player : Entity)
    (st : AIState) :
    (moveGhost g grid player st).1.pos = g.pos ∨
    ∃ c, (moveGhost g grid player st).1.pos = ghostCommit grid g.pos c := by
  unfold moveGhost
  dsimp only
  refine @ite_pred (Ghost × AIState)
    (fun y => y.1.pos = g.pos ∨ ∃ c, y.1.pos = ghostCommit grid g.pos c)
    _ _ _ _ (Or.inl rfl) ?_
  refine @ite_pred (Ghost × AIState)
    (fun y => y.1.pos = g.pos ∨ ∃ c, y.1.pos = ghostCommit grid g.pos c)
    _ _ _ _ (Or.inl rfl) ?_
  refine @ite_pred (Ghost × AIState)
    (fun y => y.1.pos = g.pos ∨ ∃ c, y.1.pos = ghostCommit grid g.pos c)
    _ _ _ _ (Or.inl rfl) ?_
  exact Or.inr ⟨_, rfl⟩

/-- `moveGhost` sends a wall-free agent placement to a wall-free agent
placement. -/
theorem moveGhost_good (g : Ghost) (grid : Grid) (player : Entity)
    (st : AIState) (hbord : borderedGrid grid = true)
    (hgood : goodGhostPos grid g.pos = true) :
    goodGhostPos grid (moveGhost g grid player st).1.pos = true := by
  have hgood2 := hgood
  unfold goodGhostPos at hgood2
  rw [Bool.and_eq_true, Bool.and_eq_true] at hgood2
  obtain ⟨⟨hxden, hyden⟩, hv⟩ := hgood2
  replace hxden : g.pos.x.den = 1 := eq_of_beq hxden
  replace hyden : g.pos.y.den = 1 := eq_of_beq hyden
  obtain ⟨hx1, hx2, hy1, hy2⟩ := validBounds grid g.pos GHOST_SIZE GHOST_SIZE
    2 2 hbord hxden hyden hv (by decide) (by decide)
    (by norm_num [GHOST_SIZE]) (by norm_num [GHOST_SIZE])
    (by norm_num) (by norm_num)
  have hx2g : g.pos.x + 1 ≤ (gridCols grid : ℚ) - GHOST_SIZE := by
    have hgs : GHOST_SIZE = 3 / 2 := rfl
    rw [hgs]
    push_cast at hx2
    linarith
  have hy2g : g.pos.y + 1 ≤ (gridRows grid : ℚ) - GHOST_SIZE := by
    have hgs : GHOST_SIZE = 3 / 2 := rfl
    rw [hgs]
    push_cast at hy2
    linarith
  rcases moveGhost_pos g grid player st with hp | ⟨c, hp⟩
  · rw [hp]
    exact hgood
  · rw [hp]
    rcases ghostCommit_id grid g.pos c hx1 hx2g hy1 hy2g with hid |
      ⟨vx, vy, hvx, hvy, heq, hval⟩
    · rw [hid]
      exact hgood
    · rw [heq]
      unfold goodGhostPos
      rw [Bool.and_eq_true, Bool.and_eq_true]
      refine ⟨⟨?_, ?_⟩, hval⟩
      · show ((Pos.mk (g.pos.x + vx) (g.pos.y + vy)).x.den == 1) = true
        rw [Pos.mk_x]
        exact beq_iff_eq.mpr (den_add_step g.pos.x vx hxden hvx)
      · show ((Pos.mk (g.pos.x + vx) (g.pos.y + vy)).y.den == 1) = true
        rw [Pos.mk_y]
        exact beq_iff_eq.mpr (den_add_step g.pos.y vy hyden hvy)

/-- A predicate holding on both arms holds on an option match. -/
theorem option_match_pred {α β : Type} {P : β → Prop} (f : α → β) (z : β)
    (o : Option α) (hf : ∀ a, P (f a)) (hz : P z) :
    P (match o with | some a => f a | none => z) := by
  cases o with
  | some a => exact hf a
  | none => exact hz

/-- The position-commit pipeline of `moveEntity` (lines 405-427) for a given
adopted direction. -/
def playerCommit (g : Grid) (p0 : Pos) (d : Direction) : Pos :=
  let v := MOVEMENT_VECTORS d
  let tx := wrapCoord (gridCols g : ℚ) PLAYER_WIDTH (p0.x + v.x)
  let ty := wrapCoord (gridRows g : ℚ) PLAYER_HEIGHT (p0.y + v.y)
  let vx := max 0 (min tx ((gridCols g : ℚ) - PLAYER_WIDTH))
  let vy := max 0 (min ty ((gridRows g : ℚ) - PLAYER_HEIGHT))
  if isValidMove g ⟨vx, vy⟩ PLAYER_WIDTH PLAYER_HEIGHT then
    let nx := if tx < 0 then (gridCols g : ℚ) - PLAYER_WIDTH else tx
    let nx2 := if tx > (gridCols g : ℚ) - PLAYER_WIDTH then 0 else nx
    let ny := if ty < 0 then (gridRows g : ℚ) - PLAYER_HEIGHT else ty
    let ny2 := if ty > (gridRows g : ℚ) - PLAYER_HEIGHT then 0 else ny
    ⟨nx2, ny2⟩
  else p0

/-- The adopted direction of `moveEntity` (lines 389-403). -/
def moveEntityDir (e : Entity) (g : Grid) : Option Direction :=
  match e.nextDir with
  | some nd =>
    let v := MOVEMENT_VECTORS nd
    let cx0 := e.pos.x + v.x
    let cy0 := e.pos.y + v.y
    let cx1 := if cx0 < 0 then (gridCols g : ℚ) - PLAYER_WIDTH else cx0
    let cx2 := if cx1 > (gridCols g : ℚ) - PLAYER_WIDTH then 0 else cx1
    let cy1 := if cy0 < 0 then (gridRows g : ℚ) - PLAYER_HEIGHT else cy0
    let cy2 := if cy1 > (gridRows g : ℚ) - PLAYER_HEIGHT then 0 else cy1
    if isValidMove g ⟨cx2, cy2⟩ PLAYER_WIDTH PLAYER_HEIGHT then some nd
    else e.dir
  | none => e.dir

/-- The new player position of `moveEntity`, by adopted direction. -/
def moveEntityPos (e : Entity) (g : Grid) : Option Direction → Pos
  | some d => playerCommit g e.pos d
  | none => e.pos

/-- `moveEntity` decomposed into its direction and position stages. -/
theorem moveEntity_eq (e : Entity) (g : Grid) :
    moveEntity e g
      = { e with pos := moveEntityPos e g (moveEntityDir e g),
                 dir := moveEntityDir e g } := by
  unfold moveEntity moveEntityPos moveEntityDir playerCommit
  rfl

/-- `moveEntity` either keeps the position or commits through the pipeline
for some direction. -/
theorem moveEntity_pos (e : Entity) (g : Grid) :
    (moveEntity e g).pos = e.pos ∨
    ∃ d : Direction, (moveEntity e g).pos = playerCommit g e.pos d := by
  rw [moveEntity_eq]
  show moveEntityPos e g (moveEntityDir e g) = e.pos ∨
    ∃ d : Direction, moveEntityPos e g (moveEntityDir e g) = playerCommit g e.pos d
  cases hcd : moveEntityDir e g with
  | none => exact Or.inl rfl
  | some d => exact Or.inr ⟨d, rfl⟩

/-- The commit pipeline sends a wall-free player placement to a wall-free
player placement. -/
theorem playerCommit_good (g : Grid) (p0 : Pos) (d : Direction)
    (hbord : borderedGrid g = true) (hxden : p0.x.den = 1)
    (hyden : p0.y.den = 1)
    (hv : isValidMove g p0 PLAYER_WIDTH PLAYER_HEIGHT = true) :
    goodPlayerPos g (playerCommit g p0 d) = true := by
  have hpw : PLAYER_WIDTH = 3 := by decide
  have hph : PLAYER_HEIGHT = 5 := by decide
  obtain ⟨hx1, hx2, hy1, hy2⟩ := validBounds g p0 PLAYER_WIDTH PLAYER_HEIGHT
    3 5 hbord hxden hyden hv (by decide) (by decide)
    (by rw [hpw]; norm_num) (by rw [hph]; norm_num)
    (by norm_num) (by norm_num)
  have hx2g : p0.x + 1 ≤ (gridCols g : ℚ) - PLAYER_WIDTH := by
    rw [hpw]
    push_cast at hx2
    linarith
  have hy2g : p0.y + 1 ≤ (gridRows g : ℚ) - PLAYER_HEIGHT := by
    rw [hph]
    push_cast at hy2
    linarith
  unfold playerCommit
  dsimp only
  set V : Pos := MOVEMENT_VECTORS d with hV
  have hVx : V.x = -1 ∨ V.x = 0 ∨ V.x = 1 := by
    rw [hV]
    cases d with
    | UP => exact Or.inr (Or.inl rfl)
    | DOWN => exact Or.inr (Or.inl rfl)
    | LEFT => exact Or.inl rfl
    | RIGHT => exact Or.inr (Or.inr rfl)
  have hVy : V.y = -1 ∨ V.y = 0 ∨ V.y = 1 := by
    rw [hV]
    cases d with
    | UP => exact Or.inl rfl
    | DOWN => exact Or.inr (Or.inr rfl)
    | LEFT => exact Or.inr (Or.inl rfl)
    | RIGHT => exact Or.inr (Or.inl rfl)
  have hvx1 : -1 ≤ V.x := by rcases hVx with h | h | h <;> rw [h] <;> norm_num
  have hvx2 : V.x ≤ 1 := by rcases hVx with h | h | h <;> rw [h] <;> norm_num
  have hvy1 : -1 ≤ V.y := by rcases hVy with h | h | h <;> rw [h] <;> norm_num
  have hvy2 : V.y ≤ 1 := by rcases hVy with h | h | h <;> rw [h] <;> norm_num
  obtain ⟨hwx, hcx, hsx1, hsx2⟩ :=
    commitCoord (gridCols g : ℚ) PLAYER_WIDTH p0.x V.x hx1 hx2g hvx1 hvx2
  obtain ⟨hwy, hcy, hsy1, hsy2⟩ :=
    commitCoord (gridRows g : ℚ) PLAYER_HEIGHT p0.y V.y hy1 hy2g hvy1 hvy2
  rw [hwx, hwy, hcx, hcy, if_neg hsx1, if_neg hsx2, if_neg hsy1, if_neg hsy2]
  by_cases hval : isValidMove g ⟨p0.x + V.x, p0.y + V.y⟩
      PLAYER_WIDTH PLAYER_HEIGHT = true
  · rw [if_pos hval]
    unfold goodPlayerPos
    rw [Bool.and_eq_true, Bool.and_eq_true]
    refine ⟨⟨?_, ?_⟩, hval⟩
    · show ((Pos.mk (p0.x + V.x) (p0.y + V.y)).x.den == 1) = true
      rw [Pos.mk_x]
      exact beq_iff_eq.mpr (den_add_step p0.x V.x hxden hVx)
    · show ((Pos.mk (p0.x + V.x) (p0.y + V.y)).y.den == 1) = true
      rw [Pos.mk_y]
      exact beq_iff_eq.mpr (den_add_step p0.y V.y hyden hVy)
  · rw [if_neg hval]
    unfold goodPlayerPos
    rw [Bool.and_eq_true, Bool.and_eq_true]
    exact ⟨⟨beq_iff_eq.mpr hxden, beq_iff_eq.mpr hyden⟩, hv⟩

/-- `moveEntity` sends a wall-free player placement to a wall-free player
placement. -/
theorem moveEntity_good (e : Entity) (g : Grid)
    (hbord : borderedGrid g = true)
    (hgood : goodPlayerPos g e.pos = true) :
    goodPlayerPos g (moveEntity e g).pos = true := by
  have hgood2 := hgood
  unfold goodPlayerPos at hgood2
  rw [Bool.and_eq_true, Bool.and_eq_true] at hgood2
  obtain ⟨⟨hxden, hyden⟩, hv⟩ := hgood2
  rcases moveEntity_pos e g with hp | ⟨d, hp⟩
  · rw [hp]
    exact hgood
  · rw [hp]
    exact playerCommit_good g e.pos d hbord (eq_of_beq hxden)
      (eq_of_beq hyden) hv

/-- Pointwise `all` congruence. -/
theorem all_congr_local {α : Type} (p q : α → Bool) :
    ∀ l : List α, (∀ a ∈ l, p a = q a) → l.all p = l.all q := by
  intro l
  induction l with
  | nil => intro _; rfl
  | cons a t ih =>
    intro h
    rw [List.all_cons, List.all_cons, h a (List.mem_cons_self a t),
      ih (fun b hb => h b (List.mem_cons_of_mem _ hb))]

/-- Pointwise `filterMap` congruence. -/
theorem filterMap_congr_local {α β : Type} (l : List α) (f f2 : α → Option β)
    (h : ∀ a ∈ l, f a = f2 a) : l.filterMap f = l.filterMap f2 := by
  induction l with
  | nil => rfl
  | cons a t ih =>
    rw [List.filterMap_cons, List.filterMap_cons, h a (List.mem_cons_self a t),
      ih (fun b hb => h b (List.mem_cons_of_mem _ hb))]

/-- Wall lookups agree between two grids that agree on walls, also at
JS-number coordinates. -/
theorem cellAt_wall_iff {g g2 : Grid}
    (hwall : ∀ x y : ℕ,
      cellAtNat g2 x y = some WALL ↔ cellAtNat g x y = some WALL)
    (q r : ℚ) : cellAt g2 q r = some WALL ↔ cellAt g q r = some WALL := by
  unfold cellAt
  by_cases hc : q.den = 1 ∧ r.den = 1 ∧ 0 ≤ q.num ∧ 0 ≤ r.num
  · rw [if_pos hc, if_pos hc]
    exact hwall _ _
  · rw [if_neg hc, if_neg hc]

/-- Validity of a placement only depends on the walls and the dimensions. -/
theorem isValidMove_transfer {g g2 : Grid} {p : Pos} {w h : ℚ}
    (hwall : ∀ x y : ℕ,
      cellAtNat g2 x y = some WALL ↔ cellAtNat g x y = some WALL)
    (hrows : gridRows g2 = gridRows g) (hcols : gridCols g2 = gridCols g) :
    isValidMove g2 p w h = isValidMove g p w h := by
  unfold isValidMove
  rw [hrows, hcols]
  by_cases h1 : p.x < 0 ∨ p.y < 0
  · rw [if_pos h1, if_pos h1]
  · rw [if_neg h1, if_neg h1]
    by_cases h2 : (gridRows g : ℚ) < p.y + h ∨ (gridCols g : ℚ) < p.x + w
    · rw [if_pos h2, if_pos h2]
    · rw [if_neg h2, if_neg h2]
      apply all_congr_local
      intro dy _
      apply all_congr_local
      intro dx _
      exact decide_eq_decide.mpr (not_congr (cellAt_wall_iff hwall _ _))

/-- One pellet-loop cell preserves every row length. -/
theorem eatCell_shape (acc : Grid × ℕ) (px py : ℚ) (i : ℕ) :
    ((eatCell acc px py).1.get? i).map List.length
      = (acc.1.get? i).map List.length := by
  unfold eatCell
  by_cases hg : py < (gridRows acc.1 : ℚ) ∧ px < (gridCols acc.1 : ℚ)
  · rw [if_pos hg]
    by_cases hP : cellAt acc.1 px py = some PELLET
    · rw [if_pos hP]
      show ((setCellQ acc.1 px py EMPTY).get? i).map List.length = _
      unfold setCellQ
      obtain ⟨hd1, hd2, hn1, hn2, hcn⟩ := cellAt_some hP
      rw [if_pos ⟨hd1, hd2, hn1, hn2⟩]
      cases hrow : acc.1.get? py.num.toNat with
      | none => rfl
      | some row =>
        by_cases hi : i = py.num.toNat
        · have hlt : py.num.toNat < acc.1.length := by
            by_contra hle
            rw [List.get?_eq_none.mpr (not_lt.mp hle)] at hrow
            cases hrow
          rw [hi, List.get?_set_eq_of_lt _ hlt, hrow]
          simp [List.length_set]
        · rw [List.get?_set_ne _ _ (fun hh => hi hh.symm)]
    · rw [if_neg hP]
  · rw [if_neg hg]

/-- A fold whose step preserves row lengths preserves them. -/
theorem foldl_shape {α : Type} (f : (Grid × ℕ) → α → Grid × ℕ)
    (hf : ∀ (acc : Grid × ℕ) (a : α) (i : ℕ),
      (((f acc a).1.get? i).map List.length) = ((acc.1.get? i).map List.length)) :
    ∀ (l : List α) (acc : Grid × ℕ) (i : ℕ),
    ((l.foldl f acc).1.get? i).map List.length
      = (acc.1.get? i).map List.length := by
  intro l
  induction l with
  | nil => intro acc i; rfl
  | cons a t ih =>
    intro acc i
    rw [List.foldl_cons]
    exact (ih (f acc a) i).trans (hf acc a i)

/-- The pellet pass preserves every row length. -/
theorem eatPellets_shape (g : Grid) (ppos : Pos) (score : ℕ) (i : ℕ) :
    ((eatPellets g ppos score).1.get? i).map List.length
      = (g.get? i).map List.length := by
  unfold eatPellets
  exact foldl_shape
    (fun acc (dy : ℕ) => (footOffsets PLAYER_WIDTH).foldl
      (fun acc2 (dx : ℕ) =>
        eatCell acc2 (ppos.x + (dx : ℚ)) (ppos.y + (dy : ℚ))) acc)
    (fun acc dy j => foldl_shape _
      (fun acc2 dx k => eatCell_shape acc2 _ _ k) _ acc j)
    (footOffsets PLAYER_HEIGHT) (g, score) i

/-- The pellet pass only rewrites `PELLET` cells to `EMPTY`: every other
value is present exactly where it was. -/
theorem eat_value_iff (g : Grid) (ppos : Pos) (score : ℕ) (v : ℕ)
    (hvP : v ≠ PELLET) (hvE : v ≠ EMPTY) (x y : ℕ) :
    cellAtNat (eatPellets g ppos score).1 x y = some v ↔
      cellAtNat g x y = some v := by
  have hpt := (eatPellets_inv g ppos score).2.1
  by_cases hsame : cellAtNat (eatPellets g ppos score).1 x y = cellAtNat g x y
  · rw [hsame]
  · obtain ⟨h1, h2, _⟩ := hpt x y hsame
    constructor
    · intro hw
      rw [h2] at hw
      exact absurd (Option.some.inj hw).symm hvE
    · intro hw
      rw [h1] at hw
      exact absurd (Option.some.inj hw).symm hvP

/-- `rectGrid` transfers along row-length-preserving grid updates. -/
theorem rectGrid_transfer {g g2 : Grid}
    (hsh : ∀ i, (g2.get? i).map List.length = (g.get? i).map List.length)
    (hcols : gridCols g2 = gridCols g)
    (hr : rectGrid g = true) : rectGrid g2 = true := by
  unfold rectGrid at hr ⊢
  rw [List.all_eq_true] at hr ⊢
  intro row2 hmem
  obtain ⟨i, hi⟩ := List.mem_iff_get?.mp hmem
  have h5 := hsh i
  rw [hi] at h5
  cases hgi : g.get? i with
  | none =>
    rw [hgi] at h5
    cases h5
  | some row =>
    rw [hgi] at h5
    have hlen : row2.length = row.length := by
      simpa using h5
    have hrow := hr row (List.get?_mem hgi)
    rw [hcols, hlen]
    exact hrow

/-- `borderedGrid` transfers along wall- and dimension-preserving updates. -/
theorem borderedGrid_transfer {g g2 : Grid}
    (hwall : ∀ x y : ℕ,
      cellAtNat g2 x y = some WALL ↔ cellAtNat g x y = some WALL)
    (hrows : gridRows g2 = gridRows g) (hcols : gridCols g2 = gridCols g)
    (hb : borderedGrid g = true) : borderedGrid g2 = true := by
  unfold borderedGrid
  rw [hrows, hcols, Bool.and_eq_true]
  constructor
  · rw [List.all_eq_true]
    intro y hy
    rw [Bool.and_eq_true]
    exact ⟨beq_iff_eq.mpr ((hwall 0 y).mpr
        (borderedGrid_left hb (List.mem_range.mp hy))),
      beq_iff_eq.mpr ((hwall _ y).mpr
        (borderedGrid_right hb (List.mem_range.mp hy)))⟩
  · rw [List.all_eq_true]
    intro x hx
    rw [Bool.and_eq_true]
    exact ⟨beq_iff_eq.mpr ((hwall x 0).mpr
        (borderedGrid_top hb (List.mem_range.mp hx))),
      beq_iff_eq.mpr ((hwall x _).mpr
        (borderedGrid_bottom hb (List.mem_range.mp hx)))⟩

/-- The spawn scan is unchanged by spawn- and dimension-preserving updates. -/
theorem spawnCells_congr {g g2 : Grid}
    (hsp : ∀ x y : ℕ, cellAtNat g2 x y = some GHOST_SPAWN ↔
      cellAtNat g x y = some GHOST_SPAWN)
    (hrows : gridRows g2 = gridRows g) (hcols : gridCols g2 = gridCols g) :
    spawnCells g2 = spawnCells g := by
  unfold spawnCells
  rw [hrows, hcols]
  congr 1
  apply List.map_congr_left
  intro y _
  apply filterMap_congr_local
  intro x _
  exact if_congr (hsp x y) rfl rfl

/-- `spawnClear` transfers along spawn-, wall- and dimension-preserving
updates. -/
theorem spawnClear_transfer {g g2 : Grid}
    (hwall : ∀ x y : ℕ,
      cellAtNat g2 x y = some WALL ↔ cellAtNat g x y = some WALL)
    (hsp : ∀ x y : ℕ, cellAtNat g2 x y = some GHOST_SPAWN ↔
      cellAtNat g x y = some GHOST_SPAWN)
    (hrows : gridRows g2 = gridRows g) (hcols : gridCols g2 = gridCols g)
    (hsc : spawnClear g = true) : spawnClear g2 = true := by
  unfold spawnClear at hsc ⊢
  rw [hrows, hcols]
  rw [List.all_eq_true] at hsc ⊢
  intro y hy
  have h1 := hsc y hy
  rw [List.all_eq_true] at h1 ⊢
  intro x hx
  have h2 := h1 x hx
  rw [Bool.or_eq_true] at h2 ⊢
  by_cases hs2 : cellAtNat g2 x y = some GHOST_SPAWN
  · have hs : cellAtNat g x y = some GHOST_SPAWN := (hsp x y).mp hs2
    rcases h2 with h2 | h2
    · rw [beq_iff_eq.mpr hs] at h2
      simp at h2
    · right
      simp only [Bool.and_eq_true] at h2 ⊢
      obtain ⟨⟨⟨⟨hb1, hb2⟩, hw1⟩, hw2⟩, hw3⟩ := h2
      refine ⟨⟨⟨⟨hb1, hb2⟩, ?_⟩, ?_⟩, ?_⟩
      · rw [Bool.not_eq_eq_eq_not, Bool.not_true, beq_eq_false_iff_ne]
        rw [Bool.not_eq_eq_eq_not, Bool.not_true, beq_eq_false_iff_ne] at hw1
        exact fun hh => hw1 ((hwall _ _).mp hh)
      · rw [Bool.not_eq_eq_eq_not, Bool.not_true, beq_eq_false_iff_ne]
        rw [Bool.not_eq_eq_eq_not, Bool.not_true, beq_eq_false_iff_ne] at hw2
        exact fun hh => hw2 ((hwall _ _).mp hh)
      · rw [Bool.not_eq_eq_eq_not, Bool.not_true, beq_eq_false_iff_ne]
        rw [Bool.not_eq_eq_eq_not, Bool.not_true, beq_eq_false_iff_ne] at hw3
        exact fun hh => hw3 ((hwall _ _).mp hh)
  · left
    rw [Bool.not_eq_eq_eq_not, Bool.not_true, beq_eq_false_iff_ne]
    exact hs2

/-- Membership in the spawn scan. -/
theorem spawnCells_mem {g : Grid} {p : Pos} (hp : p ∈ spawnCells g) :
    ∃ x y : ℕ, p = ⟨((x : ℕ) : ℚ), ((y : ℕ) : ℚ)⟩ ∧ x < gridCols g ∧
      y < gridRows g ∧ cellAtNat g x y = some GHOST_SPAWN := by
  unfold spawnCells at hp
  rw [List.mem_flatten] at hp
  obtain ⟨l, hl, hpl⟩ := hp
  rw [List.mem_map] at hl
  obtain ⟨y, hy, hly⟩ := hl
  rw [← hly] at hpl
  rw [List.mem_filterMap] at hpl
  obtain ⟨x, hx, hxp⟩ := hpl
  by_cases hc : cellAtNat g x y = some GHOST_SPAWN
  · rw [if_pos hc] at hxp
    exact ⟨x, y, (Option.some.inj hxp).symm, List.mem_range.mp hx,
      List.mem_range.mp hy, hc⟩
  · rw [if_neg hc] at hxp
    cases hxp

/-- A clear spawn cell is a wall-free agent placement. -/
theorem spawn_goodGhost {g : Grid} (hsc : spawnClear g = true) {x y : ℕ}
    (hxy : cellAtNat g x y = some GHOST_SPAWN) (hx : x < gridCols g)
    (hy : y < gridRows g) :
    goodGhostPos g ⟨((x : ℕ) : ℚ), ((y : ℕ) : ℚ)⟩ = true := by
  unfold spawnClear at hsc
  rw [List.all_eq_true] at hsc
  have h1 := hsc y (List.mem_range.mpr hy)
  rw [List.all_eq_true] at h1
  have h2 := h1 x (List.mem_range.mpr hx)
  rw [Bool.or_eq_true] at h2
  rcases h2 with h2 | h2
  · rw [beq_iff_eq.mpr hxy] at h2
    simp at h2
  · simp only [Bool.and_eq_true] at h2
    obtain ⟨⟨⟨⟨hb1, hb2⟩, hw1⟩, hw2⟩, hw3⟩ := h2
    have hb1n : x + 2 ≤ gridCols g := of_decide_eq_true hb1
    have hb2n : y + 2 ≤ gridRows g := of_decide_eq_true hb2
    rw [Bool.not_eq_eq_eq_not, Bool.not_true, beq_eq_false_iff_ne] at hw1 hw2 hw3
    unfold goodGhostPos
    rw [Bool.and_eq_true, Bool.and_eq_true]
    refine ⟨⟨?_, ?_⟩, ?_⟩
    · exact beq_iff_eq.mpr (Rat.den_natCast x)
    · exact beq_iff_eq.mpr (Rat.den_natCast y)
    · unfold isValidMove
      rw [if_neg, if_neg]
      · rw [List.all_eq_true]
        intro dy hdy
        rw [List.all_eq_true]
        intro dx hdx
        have hfo : footOffsets GHOST_SIZE = [0, 1] := by decide
        rw [hfo] at hdx hdy
        apply decide_eq_true
        show cellAt g (((x : ℕ) : ℚ) + ((dx : ℕ) : ℚ))
            (((y : ℕ) : ℚ) + ((dy : ℕ) : ℚ)) ≠ some WALL
        rw [cellAt_cast_add]
        rcases List.mem_cons.mp hdx with rfl | hdx2
        · rcases List.mem_cons.mp hdy with rfl | hdy2
          · rw [Nat.add_zero, Nat.add_zero, hxy]
            exact fun hh => absurd (Option.some.inj hh) (by decide)
          · have hdy0 : dy = 1 := by
              rcases List.mem_cons.mp hdy2 with rfl | h0
              · rfl
              · cases h0
            rw [hdy0, Nat.add_zero]
            exact hw2
        · have hdx0 : dx = 1 := by
            rcases List.mem_cons.mp hdx2 with rfl | h0
            · rfl
            · cases h0
          rcases List.mem_cons.mp hdy with rfl | hdy2
          · rw [hdx0, Nat.add_zero]
            exact hw1
          · have hdy0 : dy = 1 := by
              rcases List.mem_cons.mp hdy2 with rfl | h0
              · rfl
              · cases h0
            rw [hdx0, hdy0]
            exact hw3
      · rw [not_or]
        constructor
        · rw [not_lt]
          show ((y : ℕ) : ℚ) + GHOST_SIZE ≤ (gridRows g : ℚ)
          have hgs : GHOST_SIZE = 3 / 2 := rfl
          rw [hgs]
          have h5 : ((y + 2 : ℕ) : ℚ) ≤ ((gridRows g : ℕ) : ℚ) := by
            exact_mod_cast hb2n
          push_cast at h5
          linarith
        · rw [not_lt]
          show ((x : ℕ) : ℚ) + GHOST_SIZE ≤ (gridCols g : ℚ)
          have hgs : GHOST_SIZE = 3 / 2 := rfl
          rw [hgs]
          have h5 : ((x + 2 : ℕ) : ℚ) ≤ ((gridCols g : ℕ) : ℚ) := by
            exact_mod_cast hb1n
          push_cast at h5
          linarith
      · rw [not_or]
        constructor
        · rw [not_lt]
          show (0 : ℚ) ≤ ((x : ℕ) : ℚ)
          exact_mod_cast Nat.zero_le x
        · rw [not_lt]
          show (0 : ℚ) ≤ ((y : ℕ) : ℚ)
          exact_mod_cast Nat.zero_le y

/-- Moving the active agents keeps every active agent wall-free. -/
theorem moveActiveGhosts_good (grid : Grid) (player : Entity)
    (hbord : borderedGrid grid = true) :
    ∀ (gs : List Ghost) (st : AIState),
    (∀ gh ∈ gs, gh.isActive = true → goodGhostPos grid gh.pos = true) →
    ∀ gh2 ∈ (moveActiveGhosts gs grid player st).1,
      gh2.isActive = true → goodGhostPos grid gh2.pos = true := by
  intro gs
  induction gs with
  | nil => intro st _ gh2 hmem; cases hmem
  | cons g t ih =>
    intro st hall gh2 hmem
    unfold moveActiveGhosts at hmem
    by_cases hg : g.isActive = true
    · rw [if_pos hg] at hmem
      rcases List.mem_cons.mp hmem with rfl | hmem2
      · intro _
        exact moveGhost_good g grid player st hbord
          (hall g (List.mem_cons_self g t) hg)
      · exact ih _ (fun gh3 hm3 => hall gh3 (List.mem_cons_of_mem _ hm3))
          gh2 hmem2
    · rw [if_neg hg] at hmem
      rcases List.mem_cons.mp hmem with rfl | hmem2
      · exact hall gh2 (List.mem_cons_self gh2 t)
      · exact ih _ (fun gh3 hm3 => hall gh3 (List.mem_cons_of_mem _ hm3))
          gh2 hmem2

/-- The collision pass keeps every active agent wall-free. -/
theorem markIf_good (grid : Grid) (ppos : Pos) (gs : List Ghost)
    (hall : ∀ gh ∈ gs, gh.isActive = true → goodGhostPos grid gh.pos = true) :
    ∀ gh2 ∈ gs.map (markIf ppos), gh2.isActive = true →
      goodGhostPos grid gh2.pos = true := by
  intro gh2 hmem hact
  rw [List.mem_map] at hmem
  obtain ⟨g, hg, hgm⟩ := hmem
  by_cases hc : collided ppos g = true
  · exfalso
    rw [← hgm] at hact
    unfold markIf at hact
    rw [hc, if_pos rfl] at hact
    exact absurd hact (fun hh => nomatch hh)
  · replace hc := Bool.eq_false_iff.mpr hc
    rw [← hgm]
    unfold markIf
    rw [hc]
    show goodGhostPos grid g.pos = true
    apply hall g hg
    rw [← hgm] at hact
    unfold markIf at hact
    rw [hc] at hact
    exact hact

/-- The pending-agent activation keeps every active agent wall-free. -/
theorem activatePending_good (gs : List Ghost) (grid : Grid) (ppos : Pos)
    (hsc : spawnClear grid = true) (hne : spawnCells grid ≠ [])
    (hall : ∀ gh ∈ gs, gh.isActive = true → goodGhostPos grid gh.pos = true) :
    ∀ gh2 ∈ activatePending gs grid ppos, gh2.isActive = true →
      goodGhostPos grid gh2.pos = true := by
  intro gh2 hmem hact
  rcases activatePending_spec gs grid ppos with hid |
    ⟨i, g, hget, hact0, heat0, hoth, p2, hgi, hp2⟩
  · rw [hid] at hmem
    exact hall gh2 hmem hact
  · obtain ⟨j, hj⟩ := List.mem_iff_get?.mp hmem
    by_cases hji : j = i
    · rw [hji, hgi] at hj
      have hgh2 : gh2
          = { g with
              isActive := true,
              pos := p2,
              dir := some Direction.UP,
              nextDir := none } := (Option.some.inj hj).symm
      obtain ⟨hp2mem, _⟩ := hp2 hne
      obtain ⟨x, y, hpxy, hxlt, hylt, hcell⟩ := spawnCells_mem hp2mem
      rw [hgh2]
      show goodGhostPos grid p2 = true
      rw [hpxy]
      exact spawn_goodGhost hsc hcell hxlt hylt
    · rw [hoth j hji] at hj
      exact hall gh2 (List.get?_mem hj) hact

/-- One tick resolution preserves the session invariant. -/
theorem tick_good (prev : GameState) (st : AIState) (wt : Bool) (now : ℤ)
    (hg : goodState prev = true) :
    goodState (gameLoopTick prev st wt now).state = true := by
  by_cases h : prev.status = GameStatus.PLAYING
  · rw [gameLoopTick_eq prev st wt now h]
    unfold goodState at hg
    simp only [Bool.and_eq_true] at hg
    obtain ⟨⟨⟨⟨⟨hrect, hbord⟩, hsc⟩, hne⟩, hpl⟩, hgh⟩ := hg
    have hne2 : spawnCells prev.grid ≠ [] := by
      intro hemp
      rw [hemp] at hne
      exact absurd hne (by decide)
    have hghost : ∀ gh ∈ prev.ghosts, gh.isActive = true →
        goodGhostPos prev.grid gh.pos = true := by
      intro gh hm ha
      have h5 := List.all_eq_true.mp hgh gh hm
      rw [ha] at h5
      simpa using h5
    have hwall : ∀ x y : ℕ,
        cellAtNat (eatenOf prev).1 x y = some WALL ↔
          cellAtNat prev.grid x y = some WALL :=
      fun x y => eat_value_iff prev.grid (newPlayerOf prev).pos prev.score
        WALL (by decide) (by decide) x y
    have hsp : ∀ x y : ℕ,
        cellAtNat (eatenOf prev).1 x y = some GHOST_SPAWN ↔
          cellAtNat prev.grid x y = some GHOST_SPAWN :=
      fun x y => eat_value_iff prev.grid (newPlayerOf prev).pos prev.score
        GHOST_SPAWN (by decide) (by decide) x y
    have hrows : gridRows (eatenOf prev).1 = gridRows prev.grid :=
      (eatPellets_inv prev.grid (newPlayerOf prev).pos prev.score).2.2.1
    have hcols : gridCols (eatenOf prev).1 = gridCols prev.grid :=
      (eatPellets_inv prev.grid (newPlayerOf prev).pos prev.score).2.2.2
    have hshape : ∀ i : ℕ,
        ((eatenOf prev).1.get? i).map List.length
          = (prev.grid.get? i).map List.length :=
      fun i => eatPellets_shape prev.grid (newPlayerOf prev).pos prev.score i
    have hrect2 := rectGrid_transfer hshape hcols hrect
    have hbord2 := borderedGrid_transfer hwall hrows hcols hbord
    have hsc2 := spawnClear_transfer hwall hsp hrows hcols hsc
    have hspc : spawnCells (eatenOf prev).1 = spawnCells prev.grid :=
      spawnCells_congr hsp hrows hcols
    have hplayer : goodPlayerPos prev.grid (newPlayerOf prev).pos = true :=
      moveEntity_good prev.player prev.grid hbord hpl
    have hmoved := moveActiveGhosts_good prev.grid (newPlayerOf prev) hbord
      prev.ghosts st hghost
    have hcollg : (collOf prev st now).ghosts
        = (movedOf prev st).1.map (markIf (newPlayerOf prev).pos) := by
      unfold collOf
      rw [processCollisions_ghosts]
    have hcoll : ∀ gh ∈ (collOf prev st now).ghosts, gh.isActive = true →
        goodGhostPos prev.grid gh.pos = true := by
      intro gh hm
      rw [hcollg] at hm
      exact markIf_good prev.grid (newPlayerOf prev).pos (movedOf prev st).1
        hmoved gh hm
    have hfinal : ∀ gh ∈ ghostsOf prev st now, gh.isActive = true →
        goodGhostPos prev.grid gh.pos = true := by
      unfold ghostsOf
      by_cases hw : (collOf prev st now).wasEaten = true
      · rw [if_pos hw]
        exact activatePending_good (collOf prev st now).ghosts prev.grid
          (newPlayerOf prev).pos hsc hne2 hcoll
      · rw [if_neg hw]
        exact hcoll
    show goodState
      { prev with
        player := newPlayerOf prev,
        ghosts := ghostsOf prev st now,
        grid := (eatenOf prev).1,
        score := (collOf prev st now).score,
        status := prev.status,
        activeMessage := if (collOf prev st now).expiry < now then none
                         else (collOf prev st now).msg,
        messageExpireTimestamp := (collOf prev st now).expiry } = true
    unfold goodState
    dsimp only
    simp only [Bool.and_eq_true]
    refine ⟨⟨⟨⟨⟨hrect2, hbord2⟩, hsc2⟩, ?_⟩, ?_⟩, ?_⟩
    · rw [hspc]
      exact hne
    · unfold goodPlayerPos at hplayer ⊢
      rw [isValidMove_transfer hwall hrows hcols]
      exact hplayer
    · rw [List.all_eq_true]
      intro gh hm
      by_cases ha : gh.isActive = true
      · have hgood := hfinal gh hm ha
        have hgood2 : goodGhostPos (eatenOf prev).1 gh.pos = true := by
          unfold goodGhostPos at hgood ⊢
          rw [isValidMove_transfer hwall hrows hcols]
          exact hgood
        rw [ha, hgood2]
        rfl
      · rw [Bool.eq_false_iff.mpr ha]
        rfl
  · rw [gameLoopTick_not_playing prev st wt now h]
    exact hg

/-- Submitting a direction preserves the session invariant. -/
theorem setDirection_good (s : GameState) (d : Direction)
    (hg : goodState s = true) : goodState (setDirection s d) = true := by
  unfold setDirection
  by_cases h1 : s.status ≠ GameStatus.PLAYING ∧ s.status ≠ GameStatus.IDLE
  · rw [if_pos h1]
    exact hg
  · rw [if_neg h1]
    by_cases h2 : s.status = GameStatus.IDLE
    · rw [if_pos h2]
      exact hg
    · rw [if_neg h2]
      exact hg

/-- The deferred `WON` transition preserves the session invariant. -/
theorem fire_good (s : GameState) (hg : goodState s = true) :
    goodState (fireWonTransition s) = true := hg

/-- One session operation: a submitted direction, one tick resolution, or
the deferred `WON` transition firing. -/
inductive Step : GameState → GameState → Prop where
  | dir : ∀ (s : GameState) (d : Direction), Step s (setDirection s d)
  | tick : ∀ (s : GameState) (st : AIState) (wt : Bool) (now : ℤ),
      Step s (gameLoopTick s st wt now).state
  | fire : ∀ s : GameState, Step s (fireWonTransition s)

/-- C4 (amended): from any session state satisfying the structural invariant
(rectangular bordered grid, clear spawn footprints, a spawn cell, integral
wall-free placements) — which holds for the generated initial states that
place all agents on clear spawns — every state reachable through direction
submissions, tick resolutions and the deferred `WON` transition keeps the
player\x27s full `PLAYER_WIDTH x PLAYER_HEIGHT` footprint and every active
agent\x27s full `GHOST_SIZE x GHOST_SIZE` footprint free of `WALL` cells;
in particular the wrap-snap commit paths and pending activations never
produce a wall overlap from such states. -/
theorem C4_footprints (s0 s : GameState)
    (hinit : goodState s0 = true)
    (hreach : Relation.ReflTransGen Step s0 s) :
    (∀ dx ∈ footOffsets PLAYER_WIDTH, ∀ dy ∈ footOffsets PLAYER_HEIGHT,
      cellAt s.grid (s.player.pos.x + (dx : ℚ)) (s.player.pos.y + (dy : ℚ))
        ≠ some WALL) ∧
    (∀ gh ∈ s.ghosts, gh.isActive = true →
      ∀ dx ∈ footOffsets GHOST_SIZE, ∀ dy ∈ footOffsets GHOST_SIZE,
        cellAt s.grid (gh.pos.x + (dx : ℚ)) (gh.pos.y + (dy : ℚ))
          ≠ some WALL) := by
  have hgood : goodState s = true := by
    induction hreach with
    | refl => exact hinit
    | tail hab hstep ih =>
      cases hstep with
      | dir d => exact setDirection_good _ d ih
      | tick st wt now => exact tick_good _ st wt now ih
      | fire => exact fire_good _ ih
  unfold goodState at hgood
  simp only [Bool.and_eq_true] at hgood
  obtain ⟨⟨⟨⟨⟨hrect, hbord⟩, hsc⟩, hne⟩, hpl⟩, hgh⟩ := hgood
  constructor
  · intro dx hdx dy hdy
    unfold goodPlayerPos at hpl
    rw [Bool.and_eq_true] at hpl
    exact isValidMove_cells hpl.2 hdx hdy
  · intro gh hm ha dx hdx dy hdy
    have h5 := List.all_eq_true.mp hgh gh hm
    rw [ha] at h5
    have h6 : goodGhostPos s.grid gh.pos = true := by simpa using h5
    unfold goodGhostPos at h6
    rw [Bool.and_eq_true] at h6
    exact isValidMove_cells h6.2 hdx hdy

/-- C4 counterexample: on the generated 12x15 map (the smallest the
generator accepts), already the initial placement violates the claimed
invariant — an initially active agent\x27s `GHOST_SIZE x GHOST_SIZE`
footprint covers a `WALL` cell. -/
theorem C4_initial_wall_overlap :
    ∃ gh ∈ (getInitialGameState (generateMapLayout 12 15)).ghosts,
      gh.isActive = true ∧
      ∃ dx ∈ footOffsets GHOST_SIZE, ∃ dy ∈ footOffsets GHOST_SIZE,
        cellAt (getInitialGameState (generateMapLayout 12 15)).grid
          (gh.pos.x + (dx : ℚ)) (gh.pos.y + (dy : ℚ)) = some WALL := by
  decide

/-- A generated map whose initial state satisfies the session invariant. -/
def c4Grid : Grid := generateMapLayout 20 21

/-- Witness: the preserved-footprint theorem applied at the initial state of
the generated 20x21 session. -/
theorem C4_footprints_witness :
    goodState (getInitialGameState c4Grid) = true ∧
    (∀ dx ∈ footOffsets PLAYER_WIDTH, ∀ dy ∈ footOffsets PLAYER_HEIGHT,
      cellAt (getInitialGameState c4Grid).grid
        ((getInitialGameState c4Grid).player.pos.x + (dx : ℚ))
        ((getInitialGameState c4Grid).player.pos.y + (dy : ℚ))
        ≠ some WALL) :=
  ⟨by decide, (C4_footprints (getInitialGameState c4Grid)
      (getInitialGameState c4Grid) (by decide) Relation.ReflTransGen.refl).1⟩

end Pacman
